import Mathlib

/-!
Shallow embedding of the session lifecycle engine of the Qoot multiplayer quiz
server (`src/server.js`).  The socket event handlers, the game-logic functions
(`sendQuestion`, `endQuestion`, `endQuiz`) and the in-memory registries are
translated into pure Lean functions over an explicit `ServerState`; JavaScript
`Map`s become association lists in insertion order (JS `Map` iteration order),
`setInterval`/`setTimeout` tasks become explicit `TimerTask` records in a pool,
and each socket/timer callback becomes one atomic step of a transition
function (Node's single-threaded event loop runs every callback to completion).

Numeric conventions: all runtime numbers that the server manipulates in the
modelled traces are integers (countdown values, scores, option indices), so
the state carries `ℤ`; the speed-bonus formula divides, so the scoring engine
computes in `ℚ` and `Math.round` becomes `fun q => ⌊q + 1/2⌋` (JS rounds
half-up, toward +∞).  A JS field that can be `null` or `undefined` is an
`Option` (`none` for both; the two are never distinguished by the server:
the only test is `player.answerTime !== null`, and `answerTime` is `undefined`
only while `currentAnswer` is still `null`, in which case the guarded branch
is unreachable because `isCorrect` is false).
-/

namespace Qoot

/-- Socket connection identifiers (`socket.id`). -/
abbrev ConnId := Nat

/-- Session identifiers (8-character strings in the server). -/
abbrev SessionId := String

/-- JS `String.prototype.toLowerCase`, restricted to the character-wise case
fold that Lean's `Char.toLower` provides (sufficient for the names appearing
in the development). -/
def jsToLower (s : String) : String := ⟨s.data.map Char.toLower⟩

/-- Lookup in a JS `Map` represented as an association list (`Map.get`). -/
def mapGet {κ β : Type} [BEq κ] (m : List (κ × β)) (k : κ) : Option β :=
  match m with
  | [] => none
  | e :: rest => if e.1 == k then some e.2 else mapGet rest k

/-- JS `Map.set`: update the existing entry in place (keeping its position in
insertion order) or append a new entry at the end. -/
def mapSet {κ β : Type} [BEq κ] (m : List (κ × β)) (k : κ) (v : β) : List (κ × β) :=
  match m with
  | [] => [(k, v)]
  | e :: rest => if e.1 == k then (k, v) :: rest else e :: mapSet rest k v

/-- JS `Map.delete`: remove the entry for a key (keys of a JS `Map` are
unique, so removing the first occurrence is exact). -/
def mapDelete {κ β : Type} [BEq κ] (m : List (κ × β)) (k : κ) : List (κ × β) :=
  match m with
  | [] => []
  | e :: rest => if e.1 == k then rest else e :: mapDelete rest k

/-- JS `Map.has`. -/
def mapHas {κ β : Type} [BEq κ] (m : List (κ × β)) (k : κ) : Bool :=
  (mapGet m k).isSome

/-- JS `Array.from(map.values())` (insertion order). -/
def mapValues {κ β : Type} (m : List (κ × β)) : List β := m.map (·.2)

/-- Lifecycle status of a session (`'lobby' | 'playing' | 'finished'`). -/
inductive Status : Type
  | lobby
  | playing
  | finished
deriving DecidableEq, Repr

/-- A quiz question: text, four option strings, and the correct option index
(an untrusted JS number, hence `ℤ`). -/
structure Question where
  question : String
  options : List String
  correctIndex : ℤ
deriving DecidableEq, Repr

/-- Per-player record stored in `session.players`.  `answerTime` is the
countdown value captured at the player's first answer for the current
question (`null`/`undefined` are both `none`, see the file header). -/
structure Player where
  name : String
  score : ℤ
  currentAnswer : Option ℤ
  answerTime : Option ℤ
deriving DecidableEq, Repr

/-- One session's state (the object stored in the `sessions` map).  `timer`
holds the id of the tracked countdown task, if any (`session.timer`);
`timeLimit` is `none` until `host:start` first sets it (JS `undefined`). -/
structure Session where
  id : SessionId
  name : String
  hostSocketId : Option ConnId
  questions : List Question
  players : List (ConnId × Player)
  status : Status
  currentQuestionIndex : Nat
  timer : Option Nat
  timeLeft : ℤ
  timeLimit : Option ℤ
deriving DecidableEq, Repr

/-- The kind of an active timer task, with the state its callback captured. -/
inductive TimerKind : Type
  | question
  | interQuestion (countdownLeft : ℤ) (isLastQuestion : Bool)
  | cleanup
deriving DecidableEq, Repr

/-- An active `setInterval`/`setTimeout` task.  `tid` is the handle; a task
with kind `question` is tracked on its session (`session.timer`), an
`interQuestion` countdown and the delayed `cleanup` are untracked locals in
`endQuestion`/`endQuiz`. -/
structure TimerTask where
  tid : Nat
  sid : SessionId
  kind : TimerKind
deriving DecidableEq, Repr

/-- One row of the `quiz:results` payload built by `endQuestion`. -/
structure ResultEntry where
  name : String
  answer : Option ℤ
  isCorrect : Bool
  pointsEarned : ℤ
  totalScore : ℤ
  answerTime : Option ℤ
deriving DecidableEq, Repr

/-- Name/score pair as broadcast in rosters and final standings. -/
structure Standing where
  name : String
  score : ℤ
deriving DecidableEq, Repr

/-- One podium row of the `quiz:finished` payload. -/
structure PodiumEntry where
  position : Nat
  name : String
  score : ℤ
deriving DecidableEq, Repr

/-- Messages emitted through socket.io, room-wide or to a single socket. -/
inductive Output : Type
  | errorMsg (target : ConnId) (message : String)
  | hostSession (target : ConnId) (sid : SessionId) (quizName : String)
      (questions : List Question) (players : List Standing) (status : Status)
  | lobbyPlayers (room : SessionId) (quizName : String) (players : List Standing)
  | quizQuestion (room : SessionId) (questionNumber totalQuestions : Nat)
      (text : String) (options : List String) (timeLimit : ℤ) (totalPlayers : Nat)
  | hostCorrectAnswer (target : Option ConnId) (correctIndex : ℤ)
  | quizTimer (room : SessionId) (timeLeft : ℤ)
  | answerCount (room : SessionId) (answered total : Nat)
  | answerStats (target : Option ConnId) (stats : List Nat)
  | quizResults (room : SessionId) (correctIndex : ℤ) (correctAnswer : Option String)
      (playerResults : List ResultEntry)
  | quizCountdown (room : SessionId) (timeLeft : ℤ) (isLastQuestion : Bool)
  | quizFinished (room : SessionId) (podium : List PodiumEntry) (allResults : List Standing)
  | sessionEnded (room : SessionId) (reason : String)
deriving DecidableEq, Repr

/-- The ad hoc fields the server attaches to a socket object
(`socket.sessionId`, `socket.isHost`, `socket.playerName`). -/
structure ConnInfo where
  sessionId : Option SessionId
  isHost : Bool
  playerName : Option String
deriving DecidableEq, Repr

/-- A socket that has not joined anything yet. -/
def ConnInfo.fresh : ConnInfo := ⟨none, false, none⟩

/-- The whole server: the `sessions` registry, the per-socket fields, the
pool of live timer tasks (with a fresh-handle counter) and the emitted
messages, in order. -/
structure ServerState where
  sessions : List (SessionId × Session)
  conns : List (ConnId × ConnInfo)
  timers : List TimerTask
  nextTid : Nat
  outputs : List Output
deriving DecidableEq, Repr

/-- Append an emission. -/
def emit (st : ServerState) (o : Output) : ServerState :=
  { st with outputs := st.outputs ++ [o] }

/-- `clearInterval`/`clearTimeout`: the task with this handle will never fire
again. -/
def clearTimer (st : ServerState) (tid : Nat) : ServerState :=
  { st with timers := st.timers.filter (fun t => t.tid != tid) }

/-- Write a mutated session object back into the registry (JS mutates the
object held by the `sessions` map in place). -/
def putSession (st : ServerState) (s : Session) : ServerState :=
  { st with sessions := mapSet st.sessions s.id s }

/-- Current per-socket record, defaulting to a fresh socket. -/
def getConn (st : ServerState) (c : ConnId) : ConnInfo :=
  (mapGet st.conns c).getD ConnInfo.fresh

/-- Registry lookup (`sessions.get`). -/
def sessionAt (st : ServerState) (sid : SessionId) : Option Session :=
  mapGet st.sessions sid

/-- JS `x || d` for a possibly-missing number: `undefined`, and the falsy
number `0`, both yield the default. -/
def jsOrInt (v : Option ℤ) (d : ℤ) : ℤ :=
  match v with
  | none => d
  | some x => if x = 0 then d else x

/-- JS array indexing `l[i]` with an untrusted integer index (`undefined`,
i.e. `none`, when out of range). -/
def jsIndex {α : Type} (l : List α) (i : ℤ) : Option α :=
  if i < 0 then none else l.get? i.toNat

/-- Maximum points for a correct answer (`MAX_POINTS`, `endQuestion`). -/
def MAX_POINTS : ℤ := 1000

/-- Minimum points for a correct answer (`MIN_POINTS`, `endQuestion`). -/
def MIN_POINTS : ℤ := 500

/-- JS `Math.round` (round half toward +∞). -/
def jsRound (q : ℚ) : ℤ := ⌊q + 1/2⌋

/-- The scoring rule of `endQuestion` (src/server.js lines 528–538): zero
unless the answer is correct and an answer time was recorded, otherwise
`Math.round(MIN_POINTS + (answerTime / timeLimit) * (MAX_POINTS - MIN_POINTS))`. -/
def computePoints (isCorrect : Bool) (answerTime : Option ℤ) (timeLimit : ℤ) : ℤ :=
  match answerTime with
  | none => 0
  | some t =>
    if isCorrect then
      jsRound ((MIN_POINTS : ℚ) + ((t : ℚ) / (timeLimit : ℚ)) * ((MAX_POINTS : ℚ) - (MIN_POINTS : ℚ)))
    else 0

example : computePoints true (some 8) 10 = 900 := by
  norm_num [computePoints, jsRound, MIN_POINTS, MAX_POINTS]

example : computePoints true (some 5) 5 = 1000 := by
  norm_num [computePoints, jsRound, MIN_POINTS, MAX_POINTS]

example : computePoints true (some 0) 30 = 500 := by
  norm_num [computePoints, jsRound, MIN_POINTS, MAX_POINTS]

example : computePoints false (some 8) 10 = 0 := by decide

/-- Score one player for the current question and build their result row
(the loop body of `endQuestion`). -/
def scorePlayer (q : Question) (timeLimit : ℤ) (p : Player) : Player × ResultEntry :=
  let isCorrect := p.currentAnswer == some q.correctIndex
  let pointsEarned := computePoints isCorrect p.answerTime timeLimit
  let p1 : Player := { p with score := p.score + pointsEarned }
  (p1, ⟨p.name, p.currentAnswer, isCorrect, pointsEarned, p1.score, p.answerTime⟩)

/-- Descending-by-score order used by `results.sort((a, b) => b.totalScore - a.totalScore)`. -/
def resultGe (a b : ResultEntry) : Prop := b.totalScore ≤ a.totalScore

instance : DecidableRel resultGe := fun a b => Int.decLe b.totalScore a.totalScore

/-- Descending-by-score order used by `standings.sort((a, b) => b.score - a.score)`. -/
def standingGe (a b : Standing) : Prop := b.score ≤ a.score

instance : DecidableRel standingGe := fun a b => Int.decLe b.score a.score

/-- Roster broadcast payload: `players.values()` mapped to name/score. -/
def rosterOf (s : Session) : List Standing :=
  (mapValues s.players).map (fun p => ⟨p.name, p.score⟩)

/-- `sendQuestion(session)` (src/server.js lines 476–518): reset all answers,
broadcast the question (correct index withheld), tell the host the correct
index, set `timeLeft` and start a fresh 1-second interval, storing its handle
in `session.timer` — without cancelling any previously stored interval.  If
the question index were out of range the JS code would crash dereferencing
`undefined`; this is modelled as a plain write-back (the branch is exercised
by no modelled trace). -/
def sendQuestion (st : ServerState) (s : Session) : ServerState :=
  match s.questions.get? s.currentQuestionIndex with
  | none => putSession st s
  | some q =>
    let players1 := s.players.map (fun e => (e.1, { e.2 with currentAnswer := none, answerTime := none }))
    let tl := jsOrInt s.timeLimit 30
    let st1 := emit st (.quizQuestion s.id (s.currentQuestionIndex + 1) s.questions.length
      q.question q.options tl players1.length)
    let st2 := emit st1 (.hostCorrectAnswer s.hostSocketId q.correctIndex)
    let tid := st2.nextTid
    let st3 := { st2 with timers := st2.timers ++ [⟨tid, s.id, .question⟩], nextTid := tid + 1 }
    putSession st3 { s with players := players1, timeLeft := tl, timer := some tid }

/-- `endQuestion(session)` (src/server.js lines 520–585): score every player,
broadcast the sorted results, advance the question index and start the
5-second inter-question countdown — a local `setInterval` that is *not*
stored in `session.timer`.  The out-of-range branch is modelled as in
`sendQuestion`. -/
def endQuestion (st : ServerState) (s : Session) : ServerState :=
  match s.questions.get? s.currentQuestionIndex with
  | none => putSession st s
  | some q =>
    let tl := jsOrInt s.timeLimit 30
    let players1 := s.players.map (fun e => (e.1, (scorePlayer q tl e.2).1))
    let results := (mapValues s.players).map (fun p => (scorePlayer q tl p).2)
    let sorted := List.insertionSort resultGe results
    let st1 := emit st (.quizResults s.id q.correctIndex (jsIndex q.options q.correctIndex) sorted)
    let newIndex := s.currentQuestionIndex + 1
    let isLast := decide (s.questions.length ≤ newIndex)
    let tid := st1.nextTid
    let st2 := { st1 with timers := st1.timers ++ [⟨tid, s.id, .interQuestion 5 isLast⟩], nextTid := tid + 1 }
    putSession st2 { s with players := players1, currentQuestionIndex := newIndex }

/-- Final standings of `endQuiz`: all players mapped to name/score and stably
sorted descending by score (JS `Array.prototype.sort` is stable). -/
def standingsOf (players : List Player) : List Standing :=
  List.insertionSort standingGe (players.map (fun p => ⟨p.name, p.score⟩))

/-- Podium of `endQuiz`: top three standings with 1-based rank numbers. -/
def podiumOf (standings : List Standing) : List PodiumEntry :=
  (standings.take 3).enum.map (fun e => ⟨e.1 + 1, e.2.name, e.2.score⟩)

/-- `endQuiz(session)` (src/server.js lines 587–616): set status `finished`,
broadcast podium and standings, and schedule removal of the session from the
registry after 60 seconds (an untracked `setTimeout`). -/
def endQuiz (st : ServerState) (s : Session) : ServerState :=
  let s1 : Session := { s with status := .finished }
  let standings := standingsOf (mapValues s1.players)
  let st1 := emit st (.quizFinished s.id (podiumOf standings) standings)
  let tid := st1.nextTid
  let st2 := { st1 with timers := st1.timers ++ [⟨tid, s.id, .cleanup⟩], nextTid := tid + 1 }
  putSession st2 s1

/-- `host:join` handler (src/server.js lines 291–313): bind (or rebind) the
host socket, mark the socket, reply privately with the session snapshot. -/
def handleHostJoin (st : ServerState) (c : ConnId) (sid : SessionId) : ServerState :=
  match sessionAt st sid with
  | none => emit st (.errorMsg c "Session not found")
  | some s =>
    let s1 : Session := { s with hostSocketId := some c }
    let ci := getConn st c
    let st1 := putSession st s1
    let st2 := { st1 with conns := mapSet st1.conns c { ci with sessionId := some sid, isHost := true } }
    emit st2 (.hostSession c s1.id s1.name s1.questions (rosterOf s1) s1.status)

/-- `player:join` handler (src/server.js lines 316–368): reconnect by
case-insensitive name match, reject brand-new joins outside the lobby, reject
duplicate names, otherwise create a player with score 0; on success broadcast
the roster. -/
def handlePlayerJoin (st : ServerState) (c : ConnId) (sid : SessionId) (playerName : String) :
    ServerState :=
  match sessionAt st sid with
  | none => emit st (.errorMsg c "Session not found")
  | some s =>
    let isReconnect := ((mapValues s.players).find? (fun p => jsToLower p.name == jsToLower playerName)).isSome
    if s.status != .lobby && !isReconnect then
      emit st (.errorMsg c "Quiz has already started")
    else
      let s1 : Session :=
        if !isReconnect then
          { s with players := mapSet s.players c ⟨playerName, 0, none, none⟩ }
        else
          match s.players.find? (fun e => jsToLower e.2.name == jsToLower playerName) with
          | some entry => { s with players := mapSet (mapDelete s.players entry.1) c entry.2 }
          | none => s
      if !isReconnect && (mapValues s.players).any (fun p => jsToLower p.name == jsToLower playerName) then
        emit st (.errorMsg c "Namnet är redan taget, välj ett annat")
      else
        let st1 := putSession st s1
        let st2 := { st1 with conns := mapSet st1.conns c ⟨some sid, false, some playerName⟩ }
        emit st2 (.lobbyPlayers sid s.name (rosterOf s1))

/-- `host:start` handler (src/server.js lines 371–398): authorize, require a
player, clamp the time limit (`data?.timeLimit || 30`, then into [5,120]),
reset every player's answer state, set status `playing` and index 0, and call
`sendQuestion`.  The handler does not check the current status. -/
def handleHostStart (st : ServerState) (c : ConnId) (timeLimitArg : Option ℤ) : ServerState :=
  let ci := getConn st c
  match ci.sessionId.bind (fun sid => sessionAt st sid) with
  | none => emit st (.errorMsg c "Not authorized")
  | some s =>
    if s.hostSocketId != some c then
      emit st (.errorMsg c "Not authorized")
    else if s.players.length = 0 then
      emit st (.errorMsg c "Need at least one player")
    else
      let tl := min (max (jsOrInt timeLimitArg 30) 5) 120
      let players1 := s.players.map (fun e => (e.1, { e.2 with currentAnswer := none, answerTime := none }))
      let s1 : Session := { s with timeLimit := some tl, status := .playing, currentQuestionIndex := 0, players := players1 }
      sendQuestion st s1

/-- Per-option tally for the host (`answerStats` in the `player:answer`
handler).  JS increments `answerStats[player.currentAnswer]` on a fixed
`[0, 0, 0, 0]`; an out-of-range index writes outside the four bins (corrupting
the array), so the four bins hold exactly the in-range counts, which is what
is modelled. -/
def computeAnswerStats (players : List Player) : List Nat :=
  [((players.countP (fun p => p.currentAnswer == some 0)) : Nat),
   players.countP (fun p => p.currentAnswer == some 1),
   players.countP (fun p => p.currentAnswer == some 2),
   players.countP (fun p => p.currentAnswer == some 3)]

/-- `player:answer` handler (src/server.js lines 401–434): ignored unless the
session exists, is `playing`, and the socket is a registered player; records
the answer (capturing `timeLeft` as `answerTime` only on the first answer),
then broadcasts the answered count and sends the host the per-option tally. -/
def handlePlayerAnswer (st : ServerState) (c : ConnId) (answerIndex : ℤ) : ServerState :=
  let ci := getConn st c
  match ci.sessionId with
  | none => st
  | some sid =>
    match sessionAt st sid with
    | none => st
    | some s =>
      if s.status != .playing then st
      else
        match mapGet s.players c with
        | none => st
        | some p =>
          let p1 : Player := { p with
            answerTime := if p.currentAnswer = none then some s.timeLeft else p.answerTime,
            currentAnswer := some answerIndex }
          let s1 : Session := { s with players := mapSet s.players c p1 }
          let answered := (mapValues s1.players).countP (fun q => q.currentAnswer.isSome)
          let st1 := emit st (.answerCount sid answered s1.players.length)
          let st2 := emit st1 (.answerStats s.hostSocketId (computeAnswerStats (mapValues s1.players)))
          putSession st2 s1

/-- `host:skip` handler (src/server.js lines 437–446): for the bound host,
clear the tracked interval (if any) and call `endQuestion`.  The handler
checks neither the status nor whether a question countdown is running. -/
def handleHostSkip (st : ServerState) (c : ConnId) : ServerState :=
  let ci := getConn st c
  match ci.sessionId.bind (fun sid => sessionAt st sid) with
  | none => st
  | some s =>
    if s.hostSocketId != some c then st
    else
      let st1 := match s.timer with
        | some tid => clearTimer st tid
        | none => st
      endQuestion st1 { s with timer := none }

/-- `disconnect` handler (src/server.js lines 449–469): a host socket tears
the whole session down (clear the tracked interval, broadcast
`session:ended`, delete from the registry); a player socket is removed from
the player map and the roster is rebroadcast. -/
def handleDisconnect (st : ServerState) (c : ConnId) : ServerState :=
  let ci := getConn st c
  let st0 : ServerState := { st with conns := mapDelete st.conns c }
  match ci.sessionId with
  | none => st0
  | some sid =>
    match sessionAt st sid with
    | none => st0
    | some s =>
      if ci.isHost then
        let st1 := match s.timer with
          | some tid => clearTimer st0 tid
          | none => st0
        let st2 := emit st1 (.sessionEnded sid "Host disconnected")
        { st2 with sessions := mapDelete st2.sessions sid }
      else
        let s1 : Session := { s with players := mapDelete s.players c }
        let st1 := emit st0 (.lobbyPlayers sid s.name (rosterOf s1))
        putSession st1 s1

/-- Expiry step of the question interval (the `setInterval` callback in
`sendQuestion`): decrement and broadcast `timeLeft`; at zero, clear whatever
handle `session.timer` currently stores, null it, and run `endQuestion`. -/
def fireQuestionTimer (st : ServerState) (s : Session) : ServerState :=
  let s1 : Session := { s with timeLeft := s.timeLeft - 1 }
  let st1 := emit st (.quizTimer s1.id s1.timeLeft)
  if s1.timeLeft ≤ 0 then
    let st2 := match s1.timer with
      | some tid => clearTimer st1 tid
      | none => st1
    endQuestion st2 { s1 with timer := none }
  else putSession st1 s1

/-- One tick of the inter-question countdown (the `countdownInterval`
callback in `endQuestion`): broadcast the countdown value, decrement the
captured counter; below zero, stop itself and either finish the quiz or (if
still `playing`) send the next question. -/
def fireInterQuestion (st : ServerState) (tid : Nat) (countdownLeft : ℤ) (isLast : Bool)
    (s : Session) : ServerState :=
  let st1 := emit st (.quizCountdown s.id countdownLeft isLast)
  let ct1 := countdownLeft - 1
  if ct1 < 0 then
    let st2 := clearTimer st1 tid
    if isLast then endQuiz st2 s
    else if s.status = .playing then sendQuestion st2 s
    else st2
  else
    { st1 with timers := st1.timers.map (fun u =>
        if u.tid = tid then { u with kind := .interQuestion ct1 isLast } else u) }

/-- The 60-second cleanup `setTimeout` scheduled by `endQuiz`. -/
def fireCleanup (st : ServerState) (t : TimerTask) : ServerState :=
  let st1 := clearTimer st t.tid
  if mapHas st1.sessions t.sid then
    { st1 with sessions := mapDelete st1.sessions t.sid }
  else st1

/-- Deliver one timer callback.  A handle that has been cleared is absent
from the pool and never fires (`clearInterval` semantics).  An interval whose
session has already been deleted from the registry only mutates the detached
object and emits ticks nobody acts on; this is modelled as a no-op on the
registry state. -/
def handleTimerFire (st : ServerState) (tid : Nat) : ServerState :=
  match st.timers.find? (fun t => t.tid == tid) with
  | none => st
  | some t =>
    match t.kind with
    | .cleanup => fireCleanup st t
    | .question =>
      match sessionAt st t.sid with
      | none => st
      | some s => fireQuestionTimer st s
    | .interQuestion ct isLast =>
      match sessionAt st t.sid with
      | none => st
      | some s => fireInterQuestion st tid ct isLast s

/-- Inbound events: the socket events of the session engine plus timer
callbacks of the event loop. -/
inductive Event : Type
  | hostJoin (c : ConnId) (sid : SessionId)
  | playerJoin (c : ConnId) (sid : SessionId) (playerName : String)
  | hostStart (c : ConnId) (timeLimit : Option ℤ)
  | playerAnswer (c : ConnId) (answerIndex : ℤ)
  | hostSkip (c : ConnId)
  | disconnect (c : ConnId)
  | timerFire (tid : Nat)
deriving DecidableEq, Repr

/-- Whether an event is a `host:start`. -/
def Event.isStart : Event → Bool
  | .hostStart _ _ => true
  | _ => false

/-- One atomic step of the event loop. -/
def step (st : ServerState) : Event → ServerState
  | .hostJoin c sid => handleHostJoin st c sid
  | .playerJoin c sid n => handlePlayerJoin st c sid n
  | .hostStart c tl => handleHostStart st c tl
  | .playerAnswer c i => handlePlayerAnswer st c i
  | .hostSkip c => handleHostSkip st c
  | .disconnect c => handleDisconnect st c
  | .timerFire tid => handleTimerFire st tid

/-- Run a sequence of events. -/
def run (st : ServerState) (es : List Event) : ServerState := es.foldl step st

/-- A session as created by `POST /api/session` (src/server.js lines 181–191). -/
def createSession (sid : SessionId) (quizName : String) (questions : List Question) : Session :=
  ⟨sid, quizName, none, questions, [], .lobby, 0, none, 0, none⟩

/-- Server state holding one freshly created session and nothing else. -/
def initState (s : Session) : ServerState := ⟨[(s.id, s)], [], [], 0, []⟩

/-- Countdown tasks (question interval or inter-question countdown, not the
cleanup timeout) currently live for a session. -/
def activeCountdownsFor (st : ServerState) (sid : SessionId) : List TimerTask :=
  st.timers.filter (fun t => t.sid == sid &&
    match t.kind with
    | .cleanup => false
    | _ => true)

/-- A state whose registry entries are keyed by their own session id (true of
every state the server constructs: sessions are registered under their `id`). -/
def RegistryConsistent (st : ServerState) : Prop :=
  ∀ en ∈ st.sessions, en.2.id = en.1

instance : DecidablePred RegistryConsistent := fun st =>
  inferInstanceAs (Decidable (∀ en ∈ st.sessions, en.2.id = en.1))

/-- Registry keys are duplicate-free (JS `Map` keys always are). -/
def RegistryNodup (st : ServerState) : Prop :=
  (st.sessions.map Prod.fst).Nodup

instance : DecidablePred RegistryNodup := fun st =>
  inferInstanceAs (Decidable (st.sessions.map Prod.fst).Nodup)

theorem mapGet_eq_none_of_not_mem {κ β : Type} [BEq κ] [LawfulBEq κ]
    (m : List (κ × β)) (k : κ) (h : k ∉ m.map Prod.fst) : mapGet m k = none := by
  induction m with
  | nil => rfl
  | cons e rest ih =>
    simp only [List.map_cons, List.mem_cons] at h
    push_neg at h
    have h1 : (e.1 == k) = false := by
      simp [beq_eq_false_iff_ne]
      exact fun he => h.1 he.symm
    simp [mapGet, h1, ih h.2]

theorem mapGet_mapSet_self {κ β : Type} [BEq κ] [LawfulBEq κ]
    (m : List (κ × β)) (k : κ) (v : β) : mapGet (mapSet m k v) k = some v := by
  induction m with
  | nil => simp [mapSet, mapGet]
  | cons e rest ih =>
    by_cases h : e.1 == k
    · simp [mapSet, h, mapGet]
    · simp only [Bool.not_eq_true] at h
      simp [mapSet, h, mapGet, ih]

theorem mapGet_mapSet_ne {κ β : Type} [BEq κ] [LawfulBEq κ]
    (m : List (κ × β)) (k k' : κ) (v : β) (hne : k' ≠ k) :
    mapGet (mapSet m k v) k' = mapGet m k' := by
  have hk : (k == k') = false := by simp [beq_eq_false_iff_ne]; exact fun he => hne he.symm
  induction m with
  | nil => simp [mapSet, mapGet, hk]
  | cons e rest ih =>
    by_cases h : e.1 == k
    · have he : e.1 = k := by simpa using h
      have h2 : (e.1 == k') = false := by simp [beq_eq_false_iff_ne, he]; exact fun hx => hne hx.symm
      simp [mapSet, h, mapGet, hk, h2]
    · simp only [Bool.not_eq_true] at h
      simp [mapSet, h, mapGet, ih]

theorem mapGet_mapDelete_ne {κ β : Type} [BEq κ] [LawfulBEq κ]
    (m : List (κ × β)) (k k' : κ) (hne : k' ≠ k) :
    mapGet (mapDelete m k) k' = mapGet m k' := by
  induction m with
  | nil => rfl
  | cons e rest ih =>
    by_cases h : e.1 == k
    · have he : e.1 = k := by simpa using h
      have h2 : (e.1 == k') = false := by simp [beq_eq_false_iff_ne, he]; exact fun hx => hne hx.symm
      simp [mapDelete, h, mapGet, h2]
    · simp only [Bool.not_eq_true] at h
      simp [mapDelete, h, mapGet, ih]

theorem mapGet_mapDelete_self {κ β : Type} [BEq κ] [LawfulBEq κ]
    (m : List (κ × β)) (k : κ) (hnd : (m.map Prod.fst).Nodup) :
    mapGet (mapDelete m k) k = none := by
  induction m with
  | nil => rfl
  | cons e rest ih =>
    simp only [List.map_cons, List.nodup_cons] at hnd
    by_cases h : e.1 == k
    · have he : e.1 = k := by simpa using h
      simp only [mapDelete, h, if_pos rfl]
      exact mapGet_eq_none_of_not_mem rest k (he ▸ hnd.1)
    · simp only [Bool.not_eq_true] at h
      simp [mapDelete, h, mapGet, ih hnd.2]

theorem mapGet_mem {κ β : Type} [BEq κ] [LawfulBEq κ]
    (m : List (κ × β)) (k : κ) (v : β) (h : mapGet m k = some v) : (k, v) ∈ m := by
  induction m with
  | nil => simp [mapGet] at h
  | cons e rest ih =>
    by_cases he : e.1 == k
    · have h1 : e.1 = k := by simpa using he
      have h2 : e.2 = v := by simpa [mapGet, he] using h
      have hkv : (k, v) = e := by obtain ⟨e1, e2⟩ := e; simp_all
      rw [hkv]
      exact List.mem_cons_self _ _
    · simp only [Bool.not_eq_true] at he
      simp only [mapGet, he] at h
      exact List.mem_cons_of_mem _ (ih (by simpa [he] using h))

theorem mapGet_putSession (st : ServerState) (s : Session) (sid : SessionId) :
    mapGet (putSession st s).sessions sid = if sid = s.id then some s else mapGet st.sessions sid := by
  by_cases h : sid = s.id
  · subst h; simp [putSession, mapGet_mapSet_self]
  · simp [putSession, mapGet_mapSet_ne _ _ _ _ h, h]

theorem sessionAt_putSession (st : ServerState) (s : Session) (sid : SessionId) :
    sessionAt (putSession st s) sid = if sid = s.id then some s else sessionAt st sid :=
  mapGet_putSession st s sid

theorem sessionAt_emit (st : ServerState) (o : Output) (sid : SessionId) :
    sessionAt (emit st o) sid = sessionAt st sid := rfl

theorem sessionAt_clearTimer (st : ServerState) (tid : Nat) (sid : SessionId) :
    sessionAt (clearTimer st tid) sid = sessionAt st sid := rfl

theorem emit_sessions (st : ServerState) (o : Output) : (emit st o).sessions = st.sessions := rfl

theorem clearTimer_sessions (st : ServerState) (tid : Nat) :
    (clearTimer st tid).sessions = st.sessions := rfl

theorem sendQuestion_sessionAt_ne (st : ServerState) (s : Session) (sid : SessionId)
    (h : sid ≠ s.id) : sessionAt (sendQuestion st s) sid = sessionAt st sid := by
  unfold sendQuestion
  cases hq : s.questions.get? s.currentQuestionIndex with
  | none => simp [sessionAt, mapGet_putSession, h]
  | some q => simp [sessionAt, mapGet_putSession, h, emit_sessions]

theorem sendQuestion_sessionAt_self (st : ServerState) (s : Session) :
    (sessionAt (sendQuestion st s) s.id).map Session.status = some s.status ∧
    (sessionAt (sendQuestion st s) s.id).map Session.currentQuestionIndex = some s.currentQuestionIndex ∧
    (sessionAt (sendQuestion st s) s.id).map Session.timeLimit = some s.timeLimit := by
  unfold sendQuestion
  cases hq : s.questions.get? s.currentQuestionIndex with
  | none => simp [sessionAt, mapGet_putSession]
  | some q => simp [sessionAt, mapGet_putSession]

theorem endQuestion_sessionAt_ne (st : ServerState) (s : Session) (sid : SessionId)
    (h : sid ≠ s.id) : sessionAt (endQuestion st s) sid = sessionAt st sid := by
  unfold endQuestion
  cases hq : s.questions.get? s.currentQuestionIndex with
  | none => simp [sessionAt, mapGet_putSession, h]
  | some q => simp [sessionAt, mapGet_putSession, h, emit_sessions]

theorem endQuestion_sessionAt_self (st : ServerState) (s : Session) :
    (sessionAt (endQuestion st s) s.id).map Session.status = some s.status ∧
    (sessionAt (endQuestion st s) s.id).map Session.timer = some s.timer := by
  unfold endQuestion
  cases hq : s.questions.get? s.currentQuestionIndex with
  | none => simp [sessionAt, mapGet_putSession]
  | some q => simp [sessionAt, mapGet_putSession]

theorem endQuiz_sessionAt_ne (st : ServerState) (s : Session) (sid : SessionId)
    (h : sid ≠ s.id) : sessionAt (endQuiz st s) sid = sessionAt st sid := by
  unfold endQuiz
  simp [sessionAt, mapGet_putSession, h, emit_sessions]

theorem endQuiz_sessionAt_self (st : ServerState) (s : Session) :
    (sessionAt (endQuiz st s) s.id).map Session.status = some Status.finished := by
  unfold endQuiz
  simp [sessionAt, mapGet_putSession]

theorem sessionAt_setConns (st : ServerState) (x : List (ConnId × ConnInfo)) (sid : SessionId) :
    sessionAt { st with conns := x } sid = sessionAt st sid := rfl

theorem sessionAt_setTimers (st : ServerState) (x : List TimerTask) (sid : SessionId) :
    sessionAt { st with timers := x } sid = sessionAt st sid := rfl

theorem sessionAt_id {st : ServerState} {k : SessionId} {u : Session}
    (hcons : RegistryConsistent st) (h : sessionAt st k = some u) : u.id = k :=
  hcons (k, u) (mapGet_mem _ _ _ h)

/-- Updating one session in the registry: any looked-up session afterwards is
either the written one or the one already there. -/
theorem putSession_cases {st : ServerState} {w : Session} {sid : SessionId} {s s1 : Session}
    (h0 : sessionAt st sid = some s) (h1 : sessionAt (putSession st w) sid = some s1) :
    (sid = w.id ∧ s1 = w) ∨ s1 = s := by
  rw [sessionAt_putSession] at h1
  by_cases h : sid = w.id
  · rw [if_pos h] at h1
    exact Or.inl ⟨h, by injection h1 with h2; exact h2.symm⟩
  · rw [if_neg h] at h1
    rw [h0] at h1
    exact Or.inr (by injection h1 with h2; exact h2.symm)

theorem sessionAt_congr_sessions {st st1 : ServerState}
    (h : st1.sessions = st.sessions) (sid : SessionId) : sessionAt st1 sid = sessionAt st sid := by
  simp only [sessionAt, h]

/-- After `sendQuestion st s`, a lookup either hits the written session
(status unchanged from `s`) or sees exactly what it saw before. -/
theorem sendQuestion_cases {st : ServerState} {s : Session} {sid : SessionId} {u u1 : Session}
    (h0 : sessionAt st sid = some u) (h1 : sessionAt (sendQuestion st s) sid = some u1) :
    (sid = s.id ∧ u1.status = s.status) ∨ u1 = u := by
  by_cases hsid : sid = s.id
  · subst hsid
    obtain ⟨hst, -, -⟩ := sendQuestion_sessionAt_self st s
    rw [h1] at hst
    exact Or.inl ⟨rfl, by simpa using hst⟩
  · rw [sendQuestion_sessionAt_ne st s sid hsid, h0] at h1
    exact Or.inr (by injection h1 with h2; exact h2.symm)

theorem endQuestion_cases {st : ServerState} {s : Session} {sid : SessionId} {u u1 : Session}
    (h0 : sessionAt st sid = some u) (h1 : sessionAt (endQuestion st s) sid = some u1) :
    (sid = s.id ∧ u1.status = s.status) ∨ u1 = u := by
  by_cases hsid : sid = s.id
  · subst hsid
    obtain ⟨hst, -⟩ := endQuestion_sessionAt_self st s
    rw [h1] at hst
    exact Or.inl ⟨rfl, by simpa using hst⟩
  · rw [endQuestion_sessionAt_ne st s sid hsid, h0] at h1
    exact Or.inr (by injection h1 with h2; exact h2.symm)

theorem endQuiz_cases {st : ServerState} {s : Session} {sid : SessionId} {u u1 : Session}
    (h0 : sessionAt st sid = some u) (h1 : sessionAt (endQuiz st s) sid = some u1) :
    u1.status = Status.finished ∨ u1 = u := by
  by_cases hsid : sid = s.id
  · subst hsid
    have hst := endQuiz_sessionAt_self st s
    rw [h1] at hst
    exact Or.inl (by simpa using hst)
  · rw [endQuiz_sessionAt_ne st s sid hsid, h0] at h1
    exact Or.inr (by injection h1 with h2; exact h2.symm)

theorem putSession_cases_of {st st0 : ServerState} {w : Session} {sid : SessionId} {s s1 : Session}
    (hsess : st0.sessions = st.sessions)
    (h0 : sessionAt st sid = some s) (h1 : sessionAt (putSession st0 w) sid = some s1) :
    (sid = w.id ∧ s1 = w) ∨ s1 = s :=
  putSession_cases (by rw [sessionAt_congr_sessions hsess]; exact h0) h1

theorem sendQuestion_cases_of {st st0 : ServerState} {w : Session} {sid : SessionId} {s s1 : Session}
    (hsess : st0.sessions = st.sessions)
    (h0 : sessionAt st sid = some s) (h1 : sessionAt (sendQuestion st0 w) sid = some s1) :
    (sid = w.id ∧ s1.status = w.status) ∨ s1 = s :=
  sendQuestion_cases (by rw [sessionAt_congr_sessions hsess]; exact h0) h1

theorem endQuestion_cases_of {st st0 : ServerState} {w : Session} {sid : SessionId} {s s1 : Session}
    (hsess : st0.sessions = st.sessions)
    (h0 : sessionAt st sid = some s) (h1 : sessionAt (endQuestion st0 w) sid = some s1) :
    (sid = w.id ∧ s1.status = w.status) ∨ s1 = s :=
  endQuestion_cases (by rw [sessionAt_congr_sessions hsess]; exact h0) h1

theorem endQuiz_cases_of {st st0 : ServerState} {w : Session} {sid : SessionId} {s s1 : Session}
    (hsess : st0.sessions = st.sessions)
    (h0 : sessionAt st sid = some s) (h1 : sessionAt (endQuiz st0 w) sid = some s1) :
    s1.status = Status.finished ∨ s1 = s :=
  endQuiz_cases (by rw [sessionAt_congr_sessions hsess]; exact h0) h1

theorem sendQuestion_cases2 {st0 : ServerState} {w : Session} {sid : SessionId} {s s1 : Session}
    (h1 : sessionAt (sendQuestion st0 w) sid = some s1) (h0 : sessionAt st0 sid = some s) :
    (sid = w.id ∧ s1.status = w.status) ∨ s1 = s :=
  sendQuestion_cases h0 h1

theorem endQuestion_cases2 {st0 : ServerState} {w : Session} {sid : SessionId} {s s1 : Session}
    (h1 : sessionAt (endQuestion st0 w) sid = some s1) (h0 : sessionAt st0 sid = some s) :
    (sid = w.id ∧ s1.status = w.status) ∨ s1 = s :=
  endQuestion_cases h0 h1

/-- Status never moves backwards under any event except `host:start`: a
session seen before and after such a step keeps its status or has reached
`finished`. -/
theorem step_status_forward {st : ServerState} {e : Event} {sid : SessionId} {s s1 : Session}
    (hcons : RegistryConsistent st) (hnd : RegistryNodup st) (hns : e.isStart = false)
    (h0 : sessionAt st sid = some s) (h1 : sessionAt (step st e) sid = some s1) :
    s1.status = s.status ∨ s1.status = Status.finished := by
  cases e with
  | hostStart c tl => simp [Event.isStart] at hns
  | hostJoin c esid =>
    simp only [step, handleHostJoin] at h1
    split at h1
    · rw [sessionAt_emit, h0] at h1
      injection h1 with h2
      exact Or.inl (h2 ▸ rfl)
    · next s0 hlk =>
      rw [sessionAt_emit, sessionAt_setConns] at h1
      rcases putSession_cases h0 h1 with ⟨hk, h2⟩ | h2
      · have hid : s0.id = esid := sessionAt_id hcons hlk
        have hk2 : sid = esid := by simpa [hid] using hk
        have hss : s = s0 := by rw [hk2, hlk] at h0; injection h0 with h3; exact h3.symm
        exact Or.inl (by rw [h2, hss])
      · exact Or.inl (h2 ▸ rfl)
  | playerJoin c esid n =>
    simp only [step, handlePlayerJoin] at h1
    split at h1
    · rw [sessionAt_emit, h0] at h1
      injection h1 with h2
      exact Or.inl (h2 ▸ rfl)
    · next s0 hlk =>
      have hid : s0.id = esid := sessionAt_id hcons hlk
      split at h1
      · rw [sessionAt_emit, h0] at h1
        injection h1 with h2
        exact Or.inl (h2 ▸ rfl)
      · split at h1
        · rw [sessionAt_emit, h0] at h1
          injection h1 with h2
          exact Or.inl (h2 ▸ rfl)
        · rw [sessionAt_emit, sessionAt_setConns] at h1
          have hw := putSession_cases h0 h1
          split at hw
          · rcases hw with ⟨hk, h2⟩ | h2
            · have hk2 : sid = esid := by simpa [hid] using hk
              have hss : s = s0 := by rw [hk2, hlk] at h0; injection h0 with h3; exact h3.symm
              exact Or.inl (by rw [h2, hss])
            · exact Or.inl (h2 ▸ rfl)
          · split at hw
            · next entry heq =>
              rcases hw with ⟨hk, h2⟩ | h2
              · have hk2 : sid = esid := by simpa [hid] using hk
                have hss : s = s0 := by rw [hk2, hlk] at h0; injection h0 with h3; exact h3.symm
                exact Or.inl (by rw [h2, hss])
              · exact Or.inl (h2 ▸ rfl)
            · rcases hw with ⟨hk, h2⟩ | h2
              · have hk2 : sid = esid := by simpa [hid] using hk
                have hss : s = s0 := by rw [hk2, hlk] at h0; injection h0 with h3; exact h3.symm
                exact Or.inl (by rw [h2, hss])
              · exact Or.inl (h2 ▸ rfl)
  | playerAnswer c i =>
    simp only [step, handlePlayerAnswer] at h1
    split at h1
    · rw [h0] at h1; injection h1 with h2; exact Or.inl (h2 ▸ rfl)
    · next esid hsid0 =>
      split at h1
      · rw [h0] at h1; injection h1 with h2; exact Or.inl (h2 ▸ rfl)
      · next s0 hlk =>
        have hid : s0.id = esid := sessionAt_id hcons hlk
        split at h1
        · rw [h0] at h1; injection h1 with h2; exact Or.inl (h2 ▸ rfl)
        · split at h1
          · rw [h0] at h1; injection h1 with h2; exact Or.inl (h2 ▸ rfl)
          · next p hp =>
            have h0e : sessionAt (emit (emit st (.answerCount esid ((mapValues (mapSet s0.players c { p with answerTime := if p.currentAnswer = none then some s0.timeLeft else p.answerTime, currentAnswer := some i })).countP (fun q => q.currentAnswer.isSome)) (mapSet s0.players c { p with answerTime := if p.currentAnswer = none then some s0.timeLeft else p.answerTime, currentAnswer := some i }).length)) (.answerStats s0.hostSocketId (computeAnswerStats (mapValues (mapSet s0.players c { p with answerTime := if p.currentAnswer = none then some s0.timeLeft else p.answerTime, currentAnswer := some i }))))) sid = some s := h0
            rcases putSession_cases h0e h1 with ⟨hk, h2⟩ | h2
            · have hk2 : sid = esid := by simpa [hid] using hk
              have hss : s = s0 := by rw [hk2, hlk] at h0; injection h0 with h3; exact h3.symm
              exact Or.inl (by rw [h2, hss])
            · exact Or.inl (h2 ▸ rfl)
  | hostSkip c =>
    simp only [step, handleHostSkip] at h1
    split at h1
    · rw [h0] at h1; injection h1 with h2; exact Or.inl (h2 ▸ rfl)
    · next s0 hlk =>
      split at h1
      · rw [h0] at h1; injection h1 with h2; exact Or.inl (h2 ▸ rfl)
      · obtain ⟨esid, hsid0, hlk2⟩ := Option.bind_eq_some.mp hlk
        have hid : s0.id = esid := sessionAt_id hcons hlk2
        have hsess : (match s0.timer with | some tid => clearTimer st tid | none => st).sessions = st.sessions := by
          cases s0.timer <;> rfl
        have h0b : sessionAt (match s0.timer with | some tid => clearTimer st tid | none => st) sid = some s := by
          rw [sessionAt_congr_sessions hsess]; exact h0
        rcases endQuestion_cases h0b h1 with ⟨hk, h2⟩ | h2
        · have hk2 : sid = esid := by simpa [hid] using hk
          have hss : s = s0 := by rw [hk2, hlk2] at h0; injection h0 with h3; exact h3.symm
          exact Or.inl (by rw [h2, hss])
        · exact Or.inl (h2 ▸ rfl)
  | disconnect c =>
    simp only [step, handleDisconnect] at h1
    split at h1
    · rw [sessionAt_setConns, h0] at h1; injection h1 with h2; exact Or.inl (h2 ▸ rfl)
    · next esid hsid0 =>
      split at h1
      · rw [sessionAt_setConns, h0] at h1; injection h1 with h2; exact Or.inl (h2 ▸ rfl)
      · next s0 hlk =>
        split at h1
        · -- host branch: the session is deleted
          by_cases hk : sid = esid
          · exfalso
            subst hk
            have hsess : (emit (match s0.timer with
                | some tid => clearTimer { st with conns := mapDelete st.conns c } tid
                | none => { st with conns := mapDelete st.conns c })
                (.sessionEnded sid "Host disconnected")).sessions = st.sessions := by
              cases s0.timer <;> rfl
            simp only [sessionAt, hsess] at h1
            rw [mapGet_mapDelete_self _ _ hnd] at h1
            exact Option.noConfusion h1
          · have hsess : (emit (match s0.timer with
                | some tid => clearTimer { st with conns := mapDelete st.conns c } tid
                | none => { st with conns := mapDelete st.conns c })
                (.sessionEnded esid "Host disconnected")).sessions = st.sessions := by
              cases s0.timer <;> rfl
            simp only [sessionAt, hsess] at h1
            rw [mapGet_mapDelete_ne _ _ _ hk] at h1
            rw [show mapGet st.sessions sid = sessionAt st sid from rfl, h0] at h1
            injection h1 with h2
            exact Or.inl (h2 ▸ rfl)
        · -- player branch
          have hid : s0.id = esid := sessionAt_id hcons hlk
          rcases putSession_cases_of rfl h0 h1 with ⟨hk, h2⟩ | h2
          · have hk2 : sid = esid := by simpa [hid] using hk
            have hss : s = s0 := by rw [hk2, hlk] at h0; injection h0 with h3; exact h3.symm
            exact Or.inl (by rw [h2, hss])
          · exact Or.inl (h2 ▸ rfl)
  | timerFire tid =>
    simp only [step, handleTimerFire] at h1
    split at h1
    · rw [h0] at h1; injection h1 with h2; exact Or.inl (h2 ▸ rfl)
    · next t hfind =>
      split at h1
      · -- cleanup
        simp only [fireCleanup] at h1
        split at h1
        · by_cases hk : sid = t.sid
          · exfalso
            subst hk
            simp only [sessionAt] at h1
            rw [show (clearTimer st t.tid).sessions = st.sessions from rfl] at h1
            rw [mapGet_mapDelete_self _ _ hnd] at h1
            exact Option.noConfusion h1
          · simp only [sessionAt] at h1
            rw [show (clearTimer st t.tid).sessions = st.sessions from rfl] at h1
            rw [mapGet_mapDelete_ne _ _ _ hk] at h1
            rw [show mapGet st.sessions sid = sessionAt st sid from rfl, h0] at h1
            injection h1 with h2
            exact Or.inl (h2 ▸ rfl)
        · rw [sessionAt_clearTimer, h0] at h1
          injection h1 with h2
          exact Or.inl (h2 ▸ rfl)
      · -- question timer
        split at h1
        · rw [h0] at h1; injection h1 with h2; exact Or.inl (h2 ▸ rfl)
        · next s0 hlk =>
          have hid : s0.id = t.sid := sessionAt_id hcons hlk
          simp only [fireQuestionTimer] at h1
          split at h1
          · -- expired: the callback clears the tracked handle and ends the question
            split at h1
            · rcases endQuestion_cases2 h1 h0 with ⟨hk, h2⟩ | h2
              · have hk2 : sid = t.sid := by simpa [hid] using hk
                have hss : s = s0 := by rw [hk2, hlk] at h0; injection h0 with h3; exact h3.symm
                exact Or.inl (by rw [h2, hss])
              · exact Or.inl (h2 ▸ rfl)
            · rcases endQuestion_cases2 h1 h0 with ⟨hk, h2⟩ | h2
              · have hk2 : sid = t.sid := by simpa [hid] using hk
                have hss : s = s0 := by rw [hk2, hlk] at h0; injection h0 with h3; exact h3.symm
                exact Or.inl (by rw [h2, hss])
              · exact Or.inl (h2 ▸ rfl)
          · rcases putSession_cases_of rfl h0 h1 with ⟨hk, h2⟩ | h2
            · have hk2 : sid = t.sid := by simpa [hid] using hk
              have hss : s = s0 := by rw [hk2, hlk] at h0; injection h0 with h3; exact h3.symm
              exact Or.inl (by rw [h2, hss])
            · exact Or.inl (h2 ▸ rfl)
      · -- inter-question countdown
        split at h1
        · rw [h0] at h1; injection h1 with h2; exact Or.inl (h2 ▸ rfl)
        · next s0 hlk =>
          have hid : s0.id = t.sid := sessionAt_id hcons hlk
          simp only [fireInterQuestion] at h1
          split at h1
          · split at h1
            · -- endQuiz
              rcases endQuiz_cases_of rfl h0 h1 with h2 | h2
              · exact Or.inr h2
              · exact Or.inl (h2 ▸ rfl)
            · split at h1
              · -- sendQuestion
                rcases sendQuestion_cases2 h1 h0 with ⟨hk, h2⟩ | h2
                · have hk2 : sid = t.sid := by simpa [hid] using hk
                  have hss : s = s0 := by rw [hk2, hlk] at h0; injection h0 with h3; exact h3.symm
                  exact Or.inl (by rw [h2, hss])
                · exact Or.inl (h2 ▸ rfl)
              · rw [sessionAt_clearTimer, sessionAt_emit, h0] at h1
                injection h1 with h2
                exact Or.inl (h2 ▸ rfl)
          · rw [sessionAt_setTimers, sessionAt_emit, h0] at h1
            injection h1 with h2
            exact Or.inl (h2 ▸ rfl)

theorem mem_of_mem_mapDelete {κ β : Type} [BEq κ] {k : κ} :
    ∀ {m : List (κ × β)} {en : κ × β}, en ∈ mapDelete m k → en ∈ m := by
  intro m
  induction m with
  | nil => intro en h; simp [mapDelete] at h
  | cons e rest ih =>
    intro en h
    by_cases he : (e.1 == k) = true
    · rw [mapDelete] at h
      rw [if_pos he] at h
      exact List.mem_cons_of_mem _ h
    · rw [mapDelete] at h
      rw [if_neg he] at h
      rcases List.mem_cons.mp h with h2 | h2
      · exact h2 ▸ List.mem_cons_self _ _
      · exact List.mem_cons_of_mem _ (ih h2)

theorem mem_mapSet {κ β : Type} [BEq κ] {k : κ} {v : β} :
    ∀ {m : List (κ × β)} {en : κ × β}, en ∈ mapSet m k v → en ∈ m ∨ en = (k, v) := by
  intro m
  induction m with
  | nil =>
    intro en h
    simp only [mapSet, List.mem_singleton] at h
    exact Or.inr h
  | cons e rest ih =>
    intro en h
    by_cases he : (e.1 == k) = true
    · rw [mapSet] at h
      rw [if_pos he] at h
      rcases List.mem_cons.mp h with h2 | h2
      · exact Or.inr h2
      · exact Or.inl (List.mem_cons_of_mem _ h2)
    · rw [mapSet] at h
      rw [if_neg he] at h
      rcases List.mem_cons.mp h with h2 | h2
      · exact Or.inl (h2 ▸ List.mem_cons_self _ _)
      · rcases ih h2 with h3 | h3
        · exact Or.inl (List.mem_cons_of_mem _ h3)
        · exact Or.inr h3

theorem mem_fst_mapSet {κ β : Type} [BEq κ] {m : List (κ × β)} {k k2 : κ} {v : β}
    (h : k2 ∈ (mapSet m k v).map Prod.fst) : k2 ∈ m.map Prod.fst ∨ k2 = k := by
  obtain ⟨en, hen, heq⟩ := List.mem_map.mp h
  rcases mem_mapSet hen with h2 | h2
  · exact Or.inl (List.mem_map.mpr ⟨en, h2, heq⟩)
  · right
    rw [← heq, h2]

theorem mapSet_fst_nodup {κ β : Type} [BEq κ] [LawfulBEq κ] (k : κ) (v : β) :
    ∀ {m : List (κ × β)}, (m.map Prod.fst).Nodup → ((mapSet m k v).map Prod.fst).Nodup := by
  intro m
  induction m with
  | nil => intro _; simp [mapSet]
  | cons e rest ih =>
    intro h
    simp only [List.map_cons, List.nodup_cons] at h
    by_cases he : (e.1 == k) = true
    · have he2 : e.1 = k := by simpa using he
      rw [mapSet, if_pos he]
      simp only [List.map_cons, List.nodup_cons]
      exact ⟨he2 ▸ h.1, h.2⟩
    · rw [mapSet, if_neg he]
      simp only [List.map_cons, List.nodup_cons]
      refine ⟨?_, ih h.2⟩
      intro hmem
      rcases mem_fst_mapSet hmem with h2 | h2
      · exact h.1 h2
      · rw [h2] at he
        simp at he

theorem mapDelete_fst_nodup {κ β : Type} [BEq κ] (k : κ) :
    ∀ {m : List (κ × β)}, (m.map Prod.fst).Nodup → ((mapDelete m k).map Prod.fst).Nodup := by
  intro m
  induction m with
  | nil => intro h; exact h
  | cons e rest ih =>
    intro h
    simp only [List.map_cons, List.nodup_cons] at h
    by_cases he : (e.1 == k) = true
    · rw [mapDelete, if_pos he]
      exact h.2
    · rw [mapDelete, if_neg he]
      simp only [List.map_cons, List.nodup_cons]
      refine ⟨fun hmem => ?_, ih h.2⟩
      obtain ⟨en, hen, heq⟩ := List.mem_map.mp hmem
      exact h.1 (List.mem_map.mpr ⟨en, mem_of_mem_mapDelete hen, heq⟩)

theorem mapGet_mapDelete_of_none {κ β : Type} [BEq κ] {k : κ} :
    ∀ {m : List (κ × β)} {k2 : κ}, mapGet m k2 = none → mapGet (mapDelete m k) k2 = none := by
  intro m
  induction m with
  | nil => intro k2 _; rfl
  | cons e rest ih =>
    intro k2 h
    by_cases he2 : (e.1 == k2) = true
    · rw [mapGet, if_pos he2] at h
      exact Option.noConfusion h
    · rw [mapGet, if_neg he2] at h
      by_cases he : (e.1 == k) = true
      · rw [mapDelete, if_pos he]
        exact h
      · rw [mapDelete, if_neg he, mapGet, if_neg he2]
        exact ih h

/-- Registry consistency (every session keyed by its own id) is preserved by
every event: sessions are only ever written back under their own id, or
deleted. -/
theorem step_consistent (st : ServerState) (e : Event) (h : RegistryConsistent st) :
    RegistryConsistent (step st e) := by
  have hset : ∀ (m : List (SessionId × Session)) (w : Session) (en : SessionId × Session),
      en ∈ mapSet m w.id w → (∀ en2 ∈ m, en2.2.id = en2.1) → en.2.id = en.1 := by
    intro m w en hen hm
    rcases mem_mapSet hen with h2 | h2
    · exact hm en h2
    · rw [h2]
  have hsend : ∀ (st0 : ServerState) (w : Session) (en : SessionId × Session),
      en ∈ (sendQuestion st0 w).sessions → (∀ en2 ∈ st0.sessions, en2.2.id = en2.1) →
      en.2.id = en.1 := by
    intro st0 w en hen h0
    unfold sendQuestion at hen
    split at hen
    · exact hset _ _ en hen h0
    · exact hset _ _ en hen h0
  have hend : ∀ (st0 : ServerState) (w : Session) (en : SessionId × Session),
      en ∈ (endQuestion st0 w).sessions → (∀ en2 ∈ st0.sessions, en2.2.id = en2.1) →
      en.2.id = en.1 := by
    intro st0 w en hen h0
    unfold endQuestion at hen
    split at hen
    · exact hset _ _ en hen h0
    · exact hset _ _ en hen h0
  have hquiz : ∀ (st0 : ServerState) (w : Session) (en : SessionId × Session),
      en ∈ (endQuiz st0 w).sessions → (∀ en2 ∈ st0.sessions, en2.2.id = en2.1) →
      en.2.id = en.1 := by
    intro st0 w en hen h0
    exact hset _ _ en hen h0
  cases e with
  | hostJoin c sid =>
    intro en hen
    simp only [step, handleHostJoin] at hen
    split at hen
    · exact h en hen
    · exact hset _ _ en hen h
  | playerJoin c sid n =>
    intro en hen
    simp only [step, handlePlayerJoin] at hen
    split at hen
    · exact h en hen
    · split at hen
      · exact h en hen
      · split at hen
        · exact h en hen
        · exact hset _ _ en hen h
  | hostStart c tl =>
    intro en hen
    simp only [step, handleHostStart] at hen
    split at hen
    · exact h en hen
    · split at hen
      · exact h en hen
      · split at hen
        · exact h en hen
        · exact hsend _ _ en hen h
  | playerAnswer c i =>
    intro en hen
    simp only [step, handlePlayerAnswer] at hen
    split at hen
    · exact h en hen
    · split at hen
      · exact h en hen
      · split at hen
        · exact h en hen
        · split at hen
          · exact h en hen
          · exact hset _ _ en hen h
  | hostSkip c =>
    intro en hen
    simp only [step, handleHostSkip] at hen
    split at hen
    · exact h en hen
    · split at hen
      · exact h en hen
      · split at hen
        · exact hend _ _ en hen h
        · exact hend _ _ en hen h
  | disconnect c =>
    intro en hen
    simp only [step, handleDisconnect] at hen
    split at hen
    · exact h en hen
    · split at hen
      · exact h en hen
      · split at hen
        · split at hen
          · exact h en (mem_of_mem_mapDelete hen)
          · exact h en (mem_of_mem_mapDelete hen)
        · exact hset _ _ en hen h
  | timerFire tid =>
    intro en hen
    simp only [step, handleTimerFire] at hen
    split at hen
    · exact h en hen
    · split at hen
      · -- cleanup
        simp only [fireCleanup] at hen
        split at hen
        · exact h en (mem_of_mem_mapDelete hen)
        · exact h en hen
      · -- question
        split at hen
        · exact h en hen
        · simp only [fireQuestionTimer] at hen
          split at hen
          · split at hen
            · exact hend _ _ en hen h
            · exact hend _ _ en hen h
          · exact hset _ _ en hen h
      · -- inter-question
        split at hen
        · exact h en hen
        · simp only [fireInterQuestion] at hen
          split at hen
          · split at hen
            · exact hquiz _ _ en hen h
            · split at hen
              · exact hsend _ _ en hen h
              · exact h en hen
          · exact h en hen

/-- Duplicate-freeness of the registry keys is preserved by every event. -/
theorem step_nodup (st : ServerState) (e : Event) (h : RegistryNodup st) :
    RegistryNodup (step st e) := by
  have hsend : ∀ (st0 : ServerState) (w : Session), ((st0.sessions.map Prod.fst).Nodup) →
      (((sendQuestion st0 w).sessions.map Prod.fst).Nodup) := by
    intro st0 w h0
    unfold sendQuestion
    split
    · exact mapSet_fst_nodup _ _ h0
    · exact mapSet_fst_nodup _ _ h0
  have hend : ∀ (st0 : ServerState) (w : Session), ((st0.sessions.map Prod.fst).Nodup) →
      (((endQuestion st0 w).sessions.map Prod.fst).Nodup) := by
    intro st0 w h0
    unfold endQuestion
    split
    · exact mapSet_fst_nodup _ _ h0
    · exact mapSet_fst_nodup _ _ h0
  cases e with
  | hostJoin c sid =>
    simp only [step, handleHostJoin]
    split
    · exact h
    · exact mapSet_fst_nodup _ _ h
  | playerJoin c sid n =>
    simp only [step, handlePlayerJoin]
    split
    · exact h
    · split
      · exact h
      · split
        · exact h
        · exact mapSet_fst_nodup _ _ h
  | hostStart c tl =>
    simp only [step, handleHostStart]
    split
    · exact h
    · split
      · exact h
      · split
        · exact h
        · exact hsend _ _ h
  | playerAnswer c i =>
    simp only [step, handlePlayerAnswer]
    split
    · exact h
    · split
      · exact h
      · split
        · exact h
        · split
          · exact h
          · exact mapSet_fst_nodup _ _ h
  | hostSkip c =>
    simp only [step, handleHostSkip]
    split
    · exact h
    · split
      · exact h
      · split
        · refine hend _ _ ?_
          exact h
        · refine hend _ _ ?_
          exact h
  | disconnect c =>
    simp only [step, handleDisconnect]
    split
    · exact h
    · split
      · exact h
      · split
        · split
          · exact mapDelete_fst_nodup _ h
          · exact mapDelete_fst_nodup _ h
        · exact mapSet_fst_nodup _ _ h
  | timerFire tid =>
    simp only [step, handleTimerFire]
    split
    · exact h
    · split
      · simp only [fireCleanup]
        split
        · exact mapDelete_fst_nodup _ h
        · exact h
      · split
        · exact h
        · simp only [fireQuestionTimer]
          split
          · split
            · refine hend _ _ ?_
              exact h
            · refine hend _ _ ?_
              exact h
          · exact mapSet_fst_nodup _ _ h
      · split
        · exact h
        · simp only [fireInterQuestion]
          split
          · split
            · exact mapSet_fst_nodup _ _ h
            · split
              · refine hsend _ _ ?_
                exact h
              · exact h
          · exact h

/-- A session id that is absent from a consistent registry stays absent: no
event ever (re)creates a session — sessions are only written back under the
id at which they were found, or deleted. -/
theorem step_none_stays (st : ServerState) (e : Event) (sid : SessionId)
    (hcons : RegistryConsistent st) (h : sessionAt st sid = none) :
    sessionAt (step st e) sid = none := by
  have hput : ∀ (st0 : ServerState) (w : Session), st0.sessions = st.sessions → w.id ≠ sid →
      sessionAt (putSession st0 w) sid = none := by
    intro st0 w hs hw
    rw [sessionAt_putSession, if_neg (fun hc => hw hc.symm), sessionAt_congr_sessions hs]
    exact h
  have hsend : ∀ (st0 : ServerState) (w : Session), st0.sessions = st.sessions → w.id ≠ sid →
      sessionAt (sendQuestion st0 w) sid = none := by
    intro st0 w hs hw
    rw [sendQuestion_sessionAt_ne st0 w sid (fun hc => hw hc.symm), sessionAt_congr_sessions hs]
    exact h
  have hend : ∀ (st0 : ServerState) (w : Session), st0.sessions = st.sessions → w.id ≠ sid →
      sessionAt (endQuestion st0 w) sid = none := by
    intro st0 w hs hw
    rw [endQuestion_sessionAt_ne st0 w sid (fun hc => hw hc.symm), sessionAt_congr_sessions hs]
    exact h
  have hquiz : ∀ (st0 : ServerState) (w : Session), st0.sessions = st.sessions → w.id ≠ sid →
      sessionAt (endQuiz st0 w) sid = none := by
    intro st0 w hs hw
    rw [endQuiz_sessionAt_ne st0 w sid (fun hc => hw hc.symm), sessionAt_congr_sessions hs]
    exact h
  have hkey : ∀ (sid0 : SessionId) (s0 : Session), sessionAt st sid0 = some s0 → s0.id ≠ sid := by
    intro sid0 s0 hlk hc
    rw [sessionAt_id hcons hlk] at hc
    rw [hc, h] at hlk
    exact Option.noConfusion hlk
  cases e with
  | hostJoin c esid =>
    simp only [step, handleHostJoin]
    split
    · exact h
    · next s0 hlk =>
      rw [sessionAt_emit, sessionAt_setConns]
      exact hput _ _ rfl (hkey esid s0 hlk)
  | playerJoin c esid n =>
    simp only [step, handlePlayerJoin]
    split
    · exact h
    · next s0 hlk =>
      split
      · exact h
      · split
        · exact h
        · rw [sessionAt_emit, sessionAt_setConns]
          refine hput _ _ rfl ?_
          split
          · exact hkey esid s0 hlk
          · split
            · exact hkey esid s0 hlk
            · exact hkey esid s0 hlk
  | hostStart c tl =>
    simp only [step, handleHostStart]
    split
    · exact h
    · next s0 hlk =>
      obtain ⟨esid, -, hlk2⟩ := Option.bind_eq_some.mp hlk
      split
      · exact h
      · split
        · exact h
        · exact hsend _ _ rfl (hkey esid s0 hlk2)
  | playerAnswer c i =>
    simp only [step, handlePlayerAnswer]
    split
    · exact h
    · next esid hsid0 =>
      split
      · exact h
      · next s0 hlk =>
        split
        · exact h
        · split
          · exact h
          · exact hput _ _ rfl (hkey esid s0 hlk)
  | hostSkip c =>
    simp only [step, handleHostSkip]
    split
    · exact h
    · next s0 hlk =>
      obtain ⟨esid, -, hlk2⟩ := Option.bind_eq_some.mp hlk
      split
      · exact h
      · split
        · exact hend _ _ rfl (hkey esid s0 hlk2)
        · exact hend _ _ rfl (hkey esid s0 hlk2)
  | disconnect c =>
    simp only [step, handleDisconnect]
    split
    · exact h
    · next esid hsid0 =>
      split
      · exact h
      · next s0 hlk =>
        split
        · show mapGet (mapDelete _ esid) sid = none
          split
          · exact mapGet_mapDelete_of_none h
          · exact mapGet_mapDelete_of_none h
        · refine hput _ _ ?_ ?_
          · rfl
          · exact hkey esid s0 hlk
  | timerFire tid =>
    simp only [step, handleTimerFire]
    split
    · exact h
    · next t hfind =>
      split
      · simp only [fireCleanup]
        split
        · exact mapGet_mapDelete_of_none h
        · exact h
      · split
        · exact h
        · next s0 hlk =>
          simp only [fireQuestionTimer]
          split
          · split
            · exact hend _ _ rfl (hkey t.sid s0 hlk)
            · exact hend _ _ rfl (hkey t.sid s0 hlk)
          · refine hput _ _ ?_ ?_
            · rfl
            · exact hkey t.sid s0 hlk
      · split
        · exact h
        · next s0 hlk =>
          simp only [fireInterQuestion]
          split
          · split
            · exact hquiz _ _ rfl (hkey t.sid s0 hlk)
            · split
              · exact hsend _ _ rfl (hkey t.sid s0 hlk)
              · exact h
          · exact h

theorem run_consistent : ∀ (es : List Event) (st : ServerState),
    RegistryConsistent st → RegistryConsistent (run st es) := by
  intro es
  induction es with
  | nil => intro st h; exact h
  | cons e rest ih => intro st h; exact ih (step st e) (step_consistent st e h)

theorem run_nodup : ∀ (es : List Event) (st : ServerState),
    RegistryNodup st → RegistryNodup (run st es) := by
  intro es
  induction es with
  | nil => intro st h; exact h
  | cons e rest ih => intro st h; exact ih (step st e) (step_nodup st e h)

theorem run_none_stays : ∀ (es : List Event) (st : ServerState) (sid : SessionId),
    RegistryConsistent st → sessionAt st sid = none → sessionAt (run st es) sid = none := by
  intro es
  induction es with
  | nil => intro st sid _ h; exact h
  | cons e rest ih =>
    intro st sid hc h
    exact ih (step st e) sid (step_consistent st e hc) (step_none_stays st e sid hc h)

/-- Trace-level forwardness: across any whole sequence of events containing
no `host:start`, a session's status is either unchanged or `finished`. -/
theorem run_status_forward : ∀ (es : List Event) (st : ServerState) (sid : SessionId)
    (s s1 : Session), RegistryConsistent st → RegistryNodup st →
    (∀ e ∈ es, e.isStart = false) →
    sessionAt st sid = some s → sessionAt (run st es) sid = some s1 →
    s1.status = s.status ∨ s1.status = Status.finished := by
  intro es
  induction es with
  | nil =>
    intro st sid s s1 _ _ _ h0 h1
    rw [show run st [] = st from rfl, h0] at h1
    injection h1 with h2
    exact Or.inl (h2 ▸ rfl)
  | cons e rest ih =>
    intro st sid s s1 hc hn hns h0 h1
    have he : e.isStart = false := hns e (List.mem_cons_self _ _)
    have hc1 := step_consistent st e hc
    have hn1 := step_nodup st e hn
    rcases hmid : sessionAt (step st e) sid with _ | smid
    · have hnone : sessionAt (run (step st e) rest) sid = none :=
        run_none_stays rest (step st e) sid hc1 hmid
      rw [show run st (e :: rest) = run (step st e) rest from rfl] at h1
      rw [h1] at hnone
      exact Option.noConfusion hnone
    · have hstep := step_status_forward hc hn he h0 hmid
      have hrest := ih (step st e) sid smid s1 hc1 hn1
        (fun e2 he2 => hns e2 (List.mem_cons_of_mem _ he2)) hmid h1
      rcases hrest with h2 | h2
      · rcases hstep with h3 | h3
        · exact Or.inl (h2.trans h3)
        · exact Or.inr (h2.trans h3)
      · exact Or.inr h2

/-- A one-question session used for concrete instantiations. -/
def q0 : Question := ⟨"q", ["a", "b", "c", "d"], 0⟩

/-- State after a host (socket 1) and one player (socket 2) joined session
`"s"` of a one-question quiz. -/
def c2wState : ServerState :=
  run (initState (createSession "s" "Q" [q0])) [.hostJoin 1 "s", .playerJoin 2 "s" "P"]

/-- The session object held in `c2wState`. -/
def c2wSession : Session := (sessionAt c2wState "s").getD (createSession "s" "Q" [])

/-- Events driving the one-question quiz of `c2wState` to `finished`: start
with a 5-second limit, five question-timer ticks, six inter-question
countdown ticks. -/
def c2FinishEvents : List Event :=
  [.hostStart 1 (some 5),
   .timerFire 0, .timerFire 0, .timerFire 0, .timerFire 0, .timerFire 0,
   .timerFire 1, .timerFire 1, .timerFire 1, .timerFire 1, .timerFire 1, .timerFire 1]

/-- C2 counterexample: the lifecycle can be reversed.  Driving a one-question
quiz to `finished` and then issuing `host:start` a second time moves the
status backwards from `finished` to `playing` (and resets the question index
to 0), because the `host:start` handler never checks the current status. -/
theorem claim_C2_cex :
    (sessionAt (run c2wState c2FinishEvents) "s").map Session.status = some Status.finished ∧
    (sessionAt (step (run c2wState c2FinishEvents) (.hostStart 1 (some 5))) "s").map Session.status
      = some Status.playing ∧
    (sessionAt (step (run c2wState c2FinishEvents) (.hostStart 1 (some 5))) "s").map
      Session.currentQuestionIndex = some 0 := by
  refine ⟨?_, ?_, ?_⟩ <;> decide

/-- C2 (amended): (1) across every sequence of events containing no
`host:start`, a session's status only moves forward — it is preserved or
becomes `finished`, and in particular `lobby` is never re-entered; (2) the
exception: `host:start`
issued by the bound host of a session with at least one player always
(re)sets status to `playing` and the question index to 0, whatever the
current status — so a second `start` does have a state effect and can
reverse `finished` to `playing`; (3) `player:answer` when the addressed
session's status is not `playing` leaves the entire server state unchanged. -/
theorem claim_C2 :
    (∀ (st : ServerState) (es : List Event) (sid : SessionId) (s s1 : Session),
        RegistryConsistent st → RegistryNodup st → (∀ e ∈ es, e.isStart = false) →
        sessionAt st sid = some s → sessionAt (run st es) sid = some s1 →
        s1.status = s.status ∨ s1.status = Status.finished) ∧
    (∀ (st : ServerState) (c : ConnId) (tl : Option ℤ) (sid : SessionId) (s : Session),
        (getConn st c).sessionId = some sid → sessionAt st sid = some s →
        s.hostSocketId = some c → s.players ≠ [] →
        (sessionAt (step st (.hostStart c tl)) s.id).map Session.status = some Status.playing ∧
        (sessionAt (step st (.hostStart c tl)) s.id).map Session.currentQuestionIndex = some 0) ∧
    (∀ (st : ServerState) (c : ConnId) (i : ℤ) (sid : SessionId) (s : Session),
        (getConn st c).sessionId = some sid → sessionAt st sid = some s →
        s.status ≠ Status.playing → step st (.playerAnswer c i) = st) := by
  refine ⟨?_, ?_, ?_⟩
  · intro st es sid s s1 hcons hnd hns h0 h1
    exact run_status_forward es st sid s s1 hcons hnd hns h0 h1
  · intro st c tl sid s hsid h0 hhost hne
    have hbind : (getConn st c).sessionId.bind (fun sid2 => sessionAt st sid2) = some s := by
      rw [hsid]
      simpa using h0
    have hhne : (s.hostSocketId != some c) = false := by simp [hhost]
    have hlen : ¬(s.players.length = 0) := by simpa [List.length_eq_zero] using hne
    simp only [step, handleHostStart, hbind, hhne, Bool.false_eq_true, if_false, hlen, if_neg hlen]
    exact ⟨(sendQuestion_sessionAt_self st _).1, (sendQuestion_sessionAt_self st _).2.1⟩
  · intro st c i sid s hsid h0 hstat
    have hb : (s.status != Status.playing) = true := by simpa using hstat
    simp only [step, handlePlayerAnswer, hsid, h0, hb, if_true]

/-- A fresh session object for `getD` defaults in concrete instantiations. -/
def c2wAfter : Session :=
  (sessionAt (run c2wState [.hostJoin 3 "s", .hostSkip 3]) "s").getD (createSession "s" "Q" [])

theorem claim_C2_witness :
    (c2wAfter.status = c2wSession.status ∨ c2wAfter.status = Status.finished) ∧
    ((sessionAt (step c2wState (.hostStart 1 (some 5))) c2wSession.id).map Session.status
        = some Status.playing ∧
      (sessionAt (step c2wState (.hostStart 1 (some 5))) c2wSession.id).map
        Session.currentQuestionIndex = some 0) ∧
    step c2wState (.playerAnswer 2 0) = c2wState :=
  ⟨claim_C2.1 c2wState [.hostJoin 3 "s", .hostSkip 3] "s" c2wSession c2wAfter (by decide)
      (by decide) (by decide) (by decide) (by decide),
    claim_C2.2.1 c2wState 1 (some 5) "s" c2wSession (by decide) (by decide) (by decide) (by decide),
    claim_C2.2.2 c2wState 2 0 "s" c2wSession (by decide) (by decide) (by decide)⟩

/-- C1: the points a player earns at end-question are 0 when the selected
option differs from the correct index or when no answer time was recorded
(never answered); otherwise they are `round(500 + (timeRemaining/timeLimit) * 500)`,
which lies in [500, 1000] whenever `0 ≤ timeRemaining ≤ timeLimit` and
`0 < timeLimit`; a correct answer with 8 seconds remaining under
`timeLimit = 10` earns exactly 900 points.  (`scorePlayer` is the loop body
of `endQuestion`, so each per-player `pointsEarned` is `computePoints` of
exactly the claimed arguments.) -/
theorem claim_C1 :
    (∀ (t : Option ℤ) (L : ℤ), computePoints false t L = 0) ∧
    (∀ (b : Bool) (L : ℤ), computePoints b none L = 0) ∧
    (∀ (q : Question) (tl : ℤ) (p : Player), (scorePlayer q tl p).2.pointsEarned =
        computePoints (p.currentAnswer == some q.correctIndex) p.answerTime tl) ∧
    (∀ (t L : ℤ), 0 < L → 0 ≤ t → t ≤ L →
        computePoints true (some t) L = jsRound ((500 : ℚ) + ((t : ℚ) / (L : ℚ)) * 500) ∧
        500 ≤ computePoints true (some t) L ∧ computePoints true (some t) L ≤ 1000) ∧
    computePoints true (some 8) 10 = 900 := by
  refine ⟨?_, ?_, ?_, ?_, ?_⟩
  · intro t L
    cases t <;> simp [computePoints]
  · intro b L
    rfl
  · intro q tl p
    rfl
  · intro t L hL ht0 htL
    have hLq : (0 : ℚ) < (L : ℚ) := by exact_mod_cast hL
    have ht0q : (0 : ℚ) ≤ (t : ℚ) := by exact_mod_cast ht0
    have htLq : (t : ℚ) ≤ (L : ℚ) := by exact_mod_cast htL
    have hdiv0 : (0 : ℚ) ≤ (t : ℚ) / (L : ℚ) := div_nonneg ht0q (le_of_lt hLq)
    have hdiv1 : (t : ℚ) / (L : ℚ) ≤ 1 := (div_le_one hLq).mpr htLq
    have hrepr : computePoints true (some t) L
        = ⌊(500 : ℚ) + ((t : ℚ) / (L : ℚ)) * 500 + 1/2⌋ := by
      norm_num [computePoints, jsRound, MIN_POINTS, MAX_POINTS]
    refine ⟨by rw [hrepr]; rfl, ?_, ?_⟩
    · rw [hrepr]
      apply Int.le_floor.mpr
      push_cast
      nlinarith
    · rw [hrepr]
      have : ⌊(500 : ℚ) + ((t : ℚ) / (L : ℚ)) * 500 + 1/2⌋ < 1001 := by
        apply Int.floor_lt.mpr
        push_cast
        nlinarith
      omega
  · norm_num [computePoints, jsRound, MIN_POINTS, MAX_POINTS]

theorem claim_C1_witness :
    500 ≤ computePoints true (some 8) 10 ∧ computePoints true (some 8) 10 ≤ 1000 :=
  ⟨(claim_C1.2.2.2.1 8 10 (by decide) (by decide) (by decide)).2.1,
   (claim_C1.2.2.2.1 8 10 (by decide) (by decide) (by decide)).2.2⟩

theorem endQuestion_timers (st0 : ServerState) (w : Session) :
    (endQuestion st0 w).timers = st0.timers ∨
    ∃ k, (endQuestion st0 w).timers = st0.timers ++ [⟨st0.nextTid, w.id, k⟩] := by
  unfold endQuestion
  split
  · left; rfl
  · right; exact ⟨_, rfl⟩

/-- A cleared (or never-issued) timer handle never fires: delivering a
callback for a handle absent from the pool is a no-op. -/
theorem timerFire_cancelled (st : ServerState) (tid : Nat)
    (h : st.timers.find? (fun t => t.tid == tid) = none) :
    step st (.timerFire tid) = st := by
  simp only [step, handleTimerFire, h]

/-- State with a host joined to a one-question session still in the lobby. -/
def hostOnlyState : ServerState := run (initState (createSession "s" "Q" [q0])) [.hostJoin 1 "s"]

/-- C3 counterexample: `skip` is not restricted to `playing` with an active
countdown.  In a lobby session with no countdown running, a `host:skip`
nevertheless invokes end-question: the question index advances from 0 to 1
(and results are broadcast), although the claim says the action is valid
only in `playing` with an active question countdown. -/
theorem claim_C3_cex :
    (sessionAt hostOnlyState "s").map Session.status = some Status.lobby ∧
    (sessionAt hostOnlyState "s").map Session.timer = some none ∧
    (sessionAt hostOnlyState "s").map Session.currentQuestionIndex = some 0 ∧
    (sessionAt (step hostOnlyState (.hostSkip 1)) "s").map Session.currentQuestionIndex = some 1 := by
  refine ⟨?_, ?_, ?_, ?_⟩ <;> decide

/-- C3 (amended): `host:skip` is host-only but is executed whatever the
status; when the bound host issues it while a question countdown `tid` is
tracked, the handler cancels that countdown and invokes `endQuestion` on the
session; afterwards no live timer carries the cancelled handle, so the
cancelled countdown can never fire — a subsequent delivery of its callback
is a no-op (hence exactly one end-question per skip/expiry race). -/
theorem claim_C3 :
    ∀ (st : ServerState) (c : ConnId) (sid : SessionId) (s : Session) (tid : Nat),
      (getConn st c).sessionId = some sid → sessionAt st sid = some s →
      s.hostSocketId = some c → s.timer = some tid → tid < st.nextTid →
      step st (.hostSkip c) = endQuestion (clearTimer st tid) { s with timer := none } ∧
      (∀ u ∈ (step st (.hostSkip c)).timers, u.tid ≠ tid) ∧
      step (step st (.hostSkip c)) (.timerFire tid) = step st (.hostSkip c) := by
  intro st c sid s tid hsid h0 hhost htimer hlt
  have hbind : (getConn st c).sessionId.bind (fun sid2 => sessionAt st sid2) = some s := by
    rw [hsid]
    simpa using h0
  have hhne : (s.hostSocketId != some c) = false := by simp [hhost]
  have hstep : step st (.hostSkip c) = endQuestion (clearTimer st tid) { s with timer := none } := by
    simp only [step, handleHostSkip, hbind, hhne, Bool.false_eq_true, if_false, htimer]
  have htm : ∀ u ∈ (step st (.hostSkip c)).timers, u.tid ≠ tid := by
    rw [hstep]
    intro u hu
    rcases endQuestion_timers (clearTimer st tid) { s with timer := none } with he | ⟨k, he⟩
    · rw [he] at hu
      simp only [clearTimer, List.mem_filter] at hu
      intro hc
      rw [hc] at hu
      simpa using hu.2
    · rw [he] at hu
      rcases List.mem_append.mp hu with hu2 | hu2
      · simp only [clearTimer, List.mem_filter] at hu2
        intro hc
        rw [hc] at hu2
        simpa using hu2.2
      · simp only [List.mem_singleton] at hu2
        rw [hu2]
        intro hc
        simp only [clearTimer] at hc
        omega
  refine ⟨hstep, htm, ?_⟩
  apply timerFire_cancelled
  apply List.find?_eq_none.mpr
  intro u hu
  simpa using htm u hu

/-- State of a one-question quiz just started with a 5-second limit: status
`playing`, question countdown handle 0 tracked, `timeLeft = 5`. -/
def playingState : ServerState :=
  run (initState (createSession "s" "Q" [q0]))
    [.hostJoin 1 "s", .playerJoin 2 "s" "P", .hostStart 1 (some 5)]

/-- The session object held in `playingState`. -/
def playingSession : Session := (sessionAt playingState "s").getD (createSession "s" "Q" [])

theorem claim_C3_witness :
    step playingState (.hostSkip 1) = endQuestion (clearTimer playingState 0)
      { playingSession with timer := none } ∧
    (∀ u ∈ (step playingState (.hostSkip 1)).timers, u.tid ≠ 0) ∧
    step (step playingState (.hostSkip 1)) (.timerFire 0) = step playingState (.hostSkip 1) :=
  claim_C3 playingState 1 "s" playingSession 0 (by decide) (by decide) (by decide) (by decide)
    (by decide)

/-- State with an inter-question countdown running for session `"s"` (host
skipped the only question): `session.timer` is `none`, yet one untracked
countdown task is live. -/
def iqState : ServerState :=
  run (initState (createSession "s" "Q" [q0])) [.hostJoin 1 "s", .hostSkip 1]

/-- C6 counterexample: a host disconnect does *not* cancel every active
countdown.  With an inter-question countdown live (and untracked by
`session.timer`), the host's disconnect deletes the session and broadcasts
`session:ended`, but the countdown task survives the disconnect. -/
theorem claim_C6_cex :
    (activeCountdownsFor iqState "s").length = 1 ∧
    (sessionAt iqState "s").map Session.timer = some none ∧
    sessionAt (step iqState (.disconnect 1)) "s" = none ∧
    (step iqState (.disconnect 1)).outputs
      = iqState.outputs ++ [.sessionEnded "s" "Host disconnected"] ∧
    (activeCountdownsFor (step iqState (.disconnect 1)) "s").length = 1 := by
  refine ⟨?_, ?_, ?_, ?_, ?_⟩ <;> decide

/-- C6 (amended): for any lifecycle status, a disconnect of a host-marked
connection with a live session immediately deletes the session from the
registry and broadcasts `session:ended` to the room; it cancels the
countdown tracked in `session.timer` (if any) but no other timer task — in
particular an untracked inter-question countdown is left running. -/
theorem claim_C6 :
    ∀ (st : ServerState) (c : ConnId) (sid : SessionId) (s : Session),
      (getConn st c).sessionId = some sid → (getConn st c).isHost = true →
      sessionAt st sid = some s → RegistryNodup st →
      sessionAt (step st (.disconnect c)) sid = none ∧
      (step st (.disconnect c)).outputs = st.outputs ++ [.sessionEnded sid "Host disconnected"] ∧
      (step st (.disconnect c)).timers = (match s.timer with
        | some tid => st.timers.filter (fun t => t.tid != tid)
        | none => st.timers) := by
  intro st c sid s hsid hhost h0 hnd
  simp only [step, handleDisconnect, hsid, h0, hhost, if_true]
  cases htm : s.timer with
  | none =>
    refine ⟨?_, rfl, rfl⟩
    show mapGet (mapDelete st.sessions sid) sid = none
    exact mapGet_mapDelete_self _ _ hnd
  | some tid =>
    refine ⟨?_, rfl, rfl⟩
    show mapGet (mapDelete st.sessions sid) sid = none
    exact mapGet_mapDelete_self _ _ hnd

theorem claim_C6_witness :
    sessionAt (step c2wState (.disconnect 1)) "s" = none ∧
    (step c2wState (.disconnect 1)).outputs
      = c2wState.outputs ++ [.sessionEnded "s" "Host disconnected"] ∧
    (step c2wState (.disconnect 1)).timers = (match c2wSession.timer with
      | some tid => c2wState.timers.filter (fun t => t.tid != tid)
      | none => c2wState.timers) :=
  claim_C6 c2wState 1 "s" c2wSession (by decide) (by decide) (by decide) (by decide)

/-- State after the host of a two-question quiz skips twice in a row: the
second `endQuestion` starts a second inter-question countdown without the
first (untracked) one having been cancelled. -/
def doubleSkipState : ServerState :=
  run (initState (createSession "s" "Q" [q0, q0])) [.hostJoin 1 "s", .hostSkip 1, .hostSkip 1]

/-- C9 is violated by the code: after two consecutive skips, *two* live
countdown tasks exist for the same session — `endQuestion` starts its
inter-question countdown without cancelling any previously active one (it is
not tracked in `session.timer` at all), so the claimed at-most-one invariant
and the cancel-before-start discipline both fail at this reachable state. -/
theorem claim_C9 :
    (activeCountdownsFor doubleSkipState "s").length = 2 ∧
    ¬ ((activeCountdownsFor doubleSkipState "s").length ≤ 1) ∧
    (activeCountdownsFor doubleSkipState "s").map TimerTask.kind
      = [.interQuestion 5 false, .interQuestion 5 true] := by
  refine ⟨?_, ?_, ?_⟩ <;> decide

theorem sendQuestion_players_reset (st : ServerState) (w : Session)
    (hw : ∀ e ∈ w.players, e.2.currentAnswer = none ∧ e.2.answerTime = none) :
    ∀ u, sessionAt (sendQuestion st w) w.id = some u →
      ∀ e ∈ u.players, e.2.currentAnswer = none ∧ e.2.answerTime = none := by
  intro u hu
  unfold sendQuestion at hu
  split at hu
  · simp [sessionAt_putSession] at hu
    subst hu
    exact hw
  · simp [sessionAt_putSession] at hu
    subst hu
    intro e he
    simp only [List.mem_map] at he
    obtain ⟨e0, -, he2⟩ := he
    rw [← he2]
    exact ⟨rfl, rfl⟩

/-- C5 counterexample: a supplied time limit of 0 is *not* clamped into
[5, 120] (which would give 5); `data?.timeLimit || 30` treats the falsy 0 as
"unspecified", so the session starts with the default 30 instead. -/
theorem claim_C5_cex :
    (sessionAt (step c2wState (.hostStart 1 (some 0))) "s").map Session.timeLimit
      = some (some 30) ∧
    min (max (0 : ℤ) 5) 120 = 5 ∧ (30 : ℤ) ≠ 5 := by
  refine ⟨?_, ?_, ?_⟩ <;> decide

/-- C5 (amended): `host:start` fails `Not authorized` — leaving everything but
the error reply unchanged — when the socket has no live session or is not the
bound host, and fails `Need at least one player` on an empty player map; on
success the session's time limit becomes `min (max (tl || 30) 5) 120` (the
clamp of the supplied value into [5, 120], except that an absent *or zero*
value falls back to the default 30 first), every player's current-answer and
answer-time become null, status becomes `playing` and the question index 0. -/
theorem claim_C5 :
    (∀ (st : ServerState) (c : ConnId) (tl : Option ℤ),
        (getConn st c).sessionId.bind (fun sid => sessionAt st sid) = none →
        step st (.hostStart c tl) = emit st (.errorMsg c "Not authorized")) ∧
    (∀ (st : ServerState) (c : ConnId) (tl : Option ℤ) (sid : SessionId) (s : Session),
        (getConn st c).sessionId = some sid → sessionAt st sid = some s →
        s.hostSocketId ≠ some c →
        step st (.hostStart c tl) = emit st (.errorMsg c "Not authorized")) ∧
    (∀ (st : ServerState) (c : ConnId) (tl : Option ℤ) (sid : SessionId) (s : Session),
        (getConn st c).sessionId = some sid → sessionAt st sid = some s →
        s.hostSocketId = some c → s.players = [] →
        step st (.hostStart c tl) = emit st (.errorMsg c "Need at least one player")) ∧
    (∀ (st : ServerState) (c : ConnId) (tl : Option ℤ) (sid : SessionId) (s : Session),
        (getConn st c).sessionId = some sid → sessionAt st sid = some s →
        s.hostSocketId = some c → s.players ≠ [] →
        (sessionAt (step st (.hostStart c tl)) s.id).map Session.status = some Status.playing ∧
        (sessionAt (step st (.hostStart c tl)) s.id).map Session.currentQuestionIndex = some 0 ∧
        (sessionAt (step st (.hostStart c tl)) s.id).map Session.timeLimit
          = some (some (min (max (jsOrInt tl 30) 5) 120)) ∧
        ∀ u, sessionAt (step st (.hostStart c tl)) s.id = some u →
          ∀ e ∈ u.players, e.2.currentAnswer = none ∧ e.2.answerTime = none) := by
  refine ⟨?_, ?_, ?_, ?_⟩
  · intro st c tl h
    simp only [step, handleHostStart, h]
  · intro st c tl sid s hsid h0 hne
    have hbind : (getConn st c).sessionId.bind (fun sid2 => sessionAt st sid2) = some s := by
      rw [hsid]
      simpa using h0
    have hb : (s.hostSocketId != some c) = true := by simpa [bne_iff_ne] using hne
    simp only [step, handleHostStart, hbind, hb, if_true]
  · intro st c tl sid s hsid h0 hhost hp
    have hbind : (getConn st c).sessionId.bind (fun sid2 => sessionAt st sid2) = some s := by
      rw [hsid]
      simpa using h0
    have hhne : (s.hostSocketId != some c) = false := by simp [hhost]
    simp only [step, handleHostStart, hbind, hhne, Bool.false_eq_true, if_false, hp,
      List.length_nil, if_true]
  · intro st c tl sid s hsid h0 hhost hpne
    have hbind : (getConn st c).sessionId.bind (fun sid2 => sessionAt st sid2) = some s := by
      rw [hsid]
      simpa using h0
    have hhne : (s.hostSocketId != some c) = false := by simp [hhost]
    have hlen : ¬(s.players.length = 0) := by simpa [List.length_eq_zero] using hpne
    simp only [step, handleHostStart, hbind, hhne, Bool.false_eq_true, if_false, if_neg hlen]
    refine ⟨(sendQuestion_sessionAt_self st _).1, (sendQuestion_sessionAt_self st _).2.1,
      (sendQuestion_sessionAt_self st _).2.2, ?_⟩
    apply sendQuestion_players_reset
    intro e he
    simp only [List.mem_map] at he
    obtain ⟨e0, -, he2⟩ := he
    rw [← he2]
    exact ⟨rfl, rfl⟩

/-- The session object held in `hostOnlyState`. -/
def hostOnlySession : Session := (sessionAt hostOnlyState "s").getD (createSession "s" "Q" [])

theorem claim_C5_witness :
    step c2wState (.hostStart 9 none) = emit c2wState (.errorMsg 9 "Not authorized") ∧
    step c2wState (.hostStart 2 none) = emit c2wState (.errorMsg 2 "Not authorized") ∧
    step hostOnlyState (.hostStart 1 none)
      = emit hostOnlyState (.errorMsg 1 "Need at least one player") ∧
    (sessionAt (step c2wState (.hostStart 1 (some 7))) c2wSession.id).map Session.timeLimit
      = some (some (min (max (jsOrInt (some 7) 30) 5) 120)) :=
  ⟨claim_C5.1 c2wState 9 none (by decide),
   claim_C5.2.1 c2wState 2 none "s" c2wSession (by decide) (by decide) (by decide),
   claim_C5.2.2.1 hostOnlyState 1 none "s" hostOnlySession (by decide) (by decide) (by decide)
     (by decide),
   (claim_C5.2.2.2 c2wState 1 (some 7) "s" c2wSession (by decide) (by decide) (by decide)
     (by decide)).2.2.1⟩

/-- The player map as updated by a `player:answer` submission of index `i`
by connection `c` whose previous record was `p` (the two mutations the
handler performs, src/server.js lines 408–412). -/
def answeredPlayers (s : Session) (c : ConnId) (p : Player) (i : ℤ) : List (ConnId × Player) :=
  mapSet s.players c { p with
    answerTime := if p.currentAnswer = none then some s.timeLeft else p.answerTime,
    currentAnswer := some i }

theorem answer_conns (st : ServerState) (c : ConnId) (i : ℤ) :
    (step st (.playerAnswer c i)).conns = st.conns := by
  simp only [step, handlePlayerAnswer]
  split
  · rfl
  · split
    · rfl
    · split
      · rfl
      · split
        · rfl
        · rfl

/-- Once a player has an answer recorded, no further sequence of answer
submissions by that player changes their recorded answer time. -/
theorem answerTime_frozen :
    ∀ (idxs : List ℤ) (st : ServerState) (c : ConnId) (sid : SessionId) (s : Session) (p : Player),
      RegistryConsistent st → (getConn st c).sessionId = some sid → sessionAt st sid = some s →
      s.status = Status.playing → mapGet s.players c = some p → p.currentAnswer ≠ none →
      (sessionAt (run st (idxs.map (Event.playerAnswer c))) sid).map
        (fun s1 => (mapGet s1.players c).map Player.answerTime) = some (some p.answerTime) := by
  intro idxs
  induction idxs with
  | nil =>
    intro st c sid s p _ _ h0 _ hp _
    simp only [List.map_nil, run, List.foldl_nil, h0, Option.map_some']
    rw [hp]
    rfl
  | cons i rest ih =>
    intro st c sid s p hcons hsid h0 hstat hp hcur
    have hid : s.id = sid := sessionAt_id hcons h0
    have hb : (s.status != Status.playing) = false := by simp [hstat]
    have hconns : (step st (.playerAnswer c i)).conns = st.conns := answer_conns st c i
    have hsid1 : (getConn (step st (.playerAnswer c i)) c).sessionId = some sid := by
      rw [show getConn (step st (.playerAnswer c i)) c = getConn st c from by
        simp [getConn, hconns]]
      exact hsid
    have hs1 : sessionAt (step st (.playerAnswer c i)) sid
        = some { s with players := answeredPlayers s c p i } := by
      simp only [step, handlePlayerAnswer, hsid, h0, hb, Bool.false_eq_true, if_false, hp]
      rw [sessionAt_putSession, if_pos hid.symm]
      rfl
    have hcons1 := step_consistent st (.playerAnswer c i) hcons
    have hplayer1 : mapGet ({ s with players := answeredPlayers s c p i } : Session).players c
        = some { p with
            answerTime := if p.currentAnswer = none then some s.timeLeft else p.answerTime,
            currentAnswer := some i } := by
      rw [show ({ s with players := answeredPlayers s c p i } : Session).players
        = answeredPlayers s c p i from rfl, answeredPlayers]
      exact mapGet_mapSet_self _ _ _
    have hres := ih (step st (.playerAnswer c i)) c sid _ _ hcons1 hsid1 hs1 hstat hplayer1
      (by simp)
    rw [show ({ p with
        answerTime := if p.currentAnswer = none then some s.timeLeft else p.answerTime,
        currentAnswer := some i } : Player).answerTime
      = if p.currentAnswer = none then some s.timeLeft else p.answerTime from rfl,
      if_neg hcur] at hres
    exact hres

/-- C7: while a session is `playing`, a registered player's answer submission
always overwrites the recorded selected option with the submitted index, and
the answer-time-remaining is captured from the current countdown value
exactly when this is the player's first submission for the question
(`currentAnswer` still null) and is left untouched by every later
submission within the same question: once an answer is recorded, no
sequence of further submissions by that player changes the stored
answer-time. -/
theorem claim_C7 :
    (∀ (st : ServerState) (c : ConnId) (i : ℤ) (sid : SessionId) (s : Session) (p : Player),
      (getConn st c).sessionId = some sid → sessionAt st sid = some s →
      s.status = Status.playing → mapGet s.players c = some p →
      (sessionAt (step st (.playerAnswer c i)) s.id).map (fun s1 => mapGet s1.players c)
        = some (some { p with
            answerTime := if p.currentAnswer = none then some s.timeLeft else p.answerTime,
            currentAnswer := some i })) ∧
    (∀ (st : ServerState) (c : ConnId) (sid : SessionId) (s : Session) (p : Player)
        (idxs : List ℤ),
      RegistryConsistent st → (getConn st c).sessionId = some sid → sessionAt st sid = some s →
      s.status = Status.playing → mapGet s.players c = some p → p.currentAnswer ≠ none →
      (sessionAt (run st (idxs.map (Event.playerAnswer c))) sid).map
        (fun s1 => (mapGet s1.players c).map Player.answerTime) = some (some p.answerTime)) := by
  refine ⟨?_, ?_⟩
  · intro st c i sid s p hsid h0 hstat hp
    have hb : (s.status != Status.playing) = false := by simp [hstat]
    simp only [step, handlePlayerAnswer, hsid, h0, hb, Bool.false_eq_true, if_false, hp]
    rw [sessionAt_putSession]
    simp [mapGet_mapSet_self]
  · intro st c sid s p idxs hcons hsid h0 hstat hp hcur
    exact answerTime_frozen idxs st c sid s p hcons hsid h0 hstat hp hcur

/-- The player record stored for socket 2 in `playingState`. -/
def playingPlayer : Player := (mapGet playingSession.players 2).getD ⟨"", 0, none, none⟩

/-- State of `playingState` after player 2's first submission (option 1). -/
def answeredState : ServerState := step playingState (.playerAnswer 2 1)

/-- The session object held in `answeredState`. -/
def answeredSession : Session := (sessionAt answeredState "s").getD (createSession "s" "Q" [])

/-- The player record for socket 2 in `answeredState`. -/
def answeredPlayer : Player := (mapGet answeredSession.players 2).getD ⟨"", 0, none, none⟩

theorem claim_C7_witness :
    ((sessionAt (step playingState (.playerAnswer 2 2)) playingSession.id).map
        (fun s1 => mapGet s1.players 2)
      = some (some { playingPlayer with
          answerTime := if playingPlayer.currentAnswer = none then some playingSession.timeLeft
            else playingPlayer.answerTime,
          currentAnswer := some 2 })) ∧
    (sessionAt (run answeredState ([0, 3].map (Event.playerAnswer 2))) "s").map
        (fun s1 => (mapGet s1.players 2).map Player.answerTime)
      = some (some answeredPlayer.answerTime) :=
  ⟨claim_C7.1 playingState 2 2 "s" playingSession playingPlayer (by decide) (by decide)
      (by decide) (by decide),
   claim_C7.2 answeredState 2 "s" answeredSession answeredPlayer [0, 3] (by decide) (by decide)
      (by decide) (by decide) (by decide) (by decide)⟩

theorem computeAnswerStats_sum :
    ∀ (players : List Player),
      (∀ p ∈ players, ∀ a, p.currentAnswer = some a → 0 ≤ a ∧ a ≤ 3) →
      (computeAnswerStats players).sum = players.countP (fun p => p.currentAnswer.isSome) := by
  intro players
  induction players with
  | nil => intro _; rfl
  | cons p rest ih =>
    intro h
    have hrest := ih (fun q hq a ha => h q (List.mem_cons_of_mem _ hq) a ha)
    rcases hpa : p.currentAnswer with _ | a
    · simp only [computeAnswerStats, List.countP_cons, hpa] at hrest ⊢
      simp at hrest ⊢
      omega
    · obtain ⟨h0a, h3a⟩ := h p (List.mem_cons_self _ _) a hpa
      interval_cases a <;>
        · simp only [computeAnswerStats, List.countP_cons, hpa] at hrest ⊢
          simp at hrest ⊢
          omega

/-- C10: the answer handler performs no range validation — *any* submitted
integer becomes the player's recorded option, and the handler then sends the
host the per-option tally over the four bins together with the answered
count; the four-bin tally is well-formed (it accounts for every answered
player) precisely under the precondition that every recorded index lies in
[0, 3] — a single out-of-range answer already escapes all four bins. -/
theorem claim_C10 :
    (∀ (st : ServerState) (c : ConnId) (i : ℤ) (sid : SessionId) (s : Session) (p : Player),
      (getConn st c).sessionId = some sid → sessionAt st sid = some s →
      s.status = Status.playing → mapGet s.players c = some p →
      (sessionAt (step st (.playerAnswer c i)) s.id).map Session.players
        = some (answeredPlayers s c p i) ∧
      (mapGet (answeredPlayers s c p i) c).map Player.currentAnswer = some (some i) ∧
      (step st (.playerAnswer c i)).outputs = st.outputs ++
        [.answerCount sid
            ((mapValues (answeredPlayers s c p i)).countP (fun q2 => q2.currentAnswer.isSome))
            (answeredPlayers s c p i).length,
         .answerStats s.hostSocketId (computeAnswerStats (mapValues (answeredPlayers s c p i)))]) ∧
    (∀ (players : List Player),
      (∀ p ∈ players, ∀ a, p.currentAnswer = some a → 0 ≤ a ∧ a ≤ 3) →
      (computeAnswerStats players).length = 4 ∧
      (computeAnswerStats players).sum = players.countP (fun p => p.currentAnswer.isSome)) ∧
    ((computeAnswerStats [⟨"X", 0, some 4, some 3⟩]).sum = 0 ∧
      ([(⟨"X", 0, some 4, some 3⟩ : Player)].countP (fun p => p.currentAnswer.isSome)) = 1) := by
  refine ⟨?_, ?_, by decide, by decide⟩
  · intro st c i sid s p hsid h0 hstat hp
    have hb : (s.status != Status.playing) = false := by simp [hstat]
    simp only [step, handlePlayerAnswer, hsid, h0, hb, Bool.false_eq_true, if_false, hp]
    refine ⟨?_, ?_, ?_⟩
    · rw [sessionAt_putSession]
      simp [answeredPlayers]
    · rw [answeredPlayers, mapGet_mapSet_self]
      rfl
    · simp [answeredPlayers, putSession, emit, List.append_assoc]
  · intro players h
    exact ⟨rfl, computeAnswerStats_sum players h⟩

/-- Session state of `playingState` after player 2 submits the out-of-range
option index 7. -/
def oorState : ServerState := step playingState (.playerAnswer 2 7)

theorem claim_C10_witness :
    ((sessionAt oorState playingSession.id).map Session.players
        = some (answeredPlayers playingSession 2 playingPlayer 7) ∧
      (mapGet (answeredPlayers playingSession 2 playingPlayer 7) 2).map Player.currentAnswer
        = some (some 7) ∧
      oorState.outputs = playingState.outputs ++
        [.answerCount "s"
            ((mapValues (answeredPlayers playingSession 2 playingPlayer 7)).countP
              (fun q2 => q2.currentAnswer.isSome))
            (answeredPlayers playingSession 2 playingPlayer 7).length,
         .answerStats playingSession.hostSocketId
           (computeAnswerStats (mapValues (answeredPlayers playingSession 2 playingPlayer 7)))]) ∧
    ((computeAnswerStats [⟨"A", 0, some 2, some 4⟩, ⟨"B", 10, none, none⟩]).length = 4 ∧
      (computeAnswerStats [⟨"A", 0, some 2, some 4⟩, ⟨"B", 10, none, none⟩]).sum
        = [(⟨"A", 0, some 2, some 4⟩ : Player), ⟨"B", 10, none, none⟩].countP
            (fun p => p.currentAnswer.isSome)) :=
  ⟨claim_C10.1 playingState 2 7 "s" playingSession playingPlayer (by decide) (by decide)
      (by decide) (by decide),
   claim_C10.2.1 [⟨"A", 0, some 2, some 4⟩, ⟨"B", 10, none, none⟩] (by decide)⟩

instance : IsTotal Standing standingGe := ⟨fun a b => le_total b.score a.score⟩

instance : IsTrans Standing standingGe := ⟨fun _ _ _ hab hbc => le_trans hbc hab⟩

theorem orderedInsert_filter_pos (a : Standing) (k : ℤ) (ha : (a.score == k) = true) :
    ∀ l : List Standing, (List.orderedInsert standingGe a l).filter (fun e => e.score == k)
      = a :: l.filter (fun e => e.score == k) := by
  intro l
  induction l with
  | nil => simp [ha]
  | cons b rest ih =>
    by_cases hr : standingGe a b
    · rw [List.orderedInsert, if_pos hr]
      simp [List.filter_cons, ha]
    · rw [List.orderedInsert, if_neg hr]
      have hlt : a.score < b.score := lt_of_not_le (fun h => hr h)
      have hak : a.score = k := by simpa using ha
      have hb : (b.score == k) = false := by
        simp only [beq_eq_false_iff_ne, ne_eq]
        omega
      simp [List.filter_cons, hb, ih]

theorem orderedInsert_filter_neg (a : Standing) (k : ℤ) (ha : (a.score == k) = false) :
    ∀ l : List Standing, (List.orderedInsert standingGe a l).filter (fun e => e.score == k)
      = l.filter (fun e => e.score == k) := by
  intro l
  induction l with
  | nil => simp [ha]
  | cons b rest ih =>
    by_cases hr : standingGe a b
    · rw [List.orderedInsert, if_pos hr]
      simp [List.filter_cons, ha]
    · rw [List.orderedInsert, if_neg hr]
      simp [List.filter_cons, ih]

/-- Stable sorting keeps each equal-score class in its original order: the
sorted list filtered to one score class is the input filtered to that class. -/
theorem insertionSort_score_filter :
    ∀ (l : List Standing) (k : ℤ),
      (List.insertionSort standingGe l).filter (fun e => e.score == k)
        = l.filter (fun e => e.score == k) := by
  intro l k
  induction l with
  | nil => rfl
  | cons a rest ih =>
    rw [List.insertionSort]
    by_cases ha : (a.score == k) = true
    · rw [orderedInsert_filter_pos a k ha, ih, List.filter_cons, if_pos ha]
    · have ha2 : (a.score == k) = false := by simpa using ha
      rw [orderedInsert_filter_neg a k ha2, ih, List.filter_cons, if_neg (by simp [ha2])]

theorem enumFrom_map_pos (m : List Standing) :
    ∀ n : Nat, (List.enumFrom n m).map (fun e => e.1 + 1) = List.range' (n + 1) m.length := by
  induction m with
  | nil => intro n; rfl
  | cons a rest ih =>
    intro n
    simp only [List.enumFrom, List.map_cons, List.length_cons, List.range']
    rw [ih (n + 1)]

theorem enumFrom_map_entry (m : List Standing) :
    ∀ n : Nat, (List.enumFrom n m).map (fun e => (⟨e.2.name, e.2.score⟩ : Standing)) = m := by
  induction m with
  | nil => intro n; rfl
  | cons a rest ih =>
    intro n
    simp only [List.enumFrom, List.map_cons, ih]

/-- Two-player session where Alice joined before Bob and then reconnected
from a new socket, which re-inserts her at the end of the player map; nobody
answers the single question, so both finish on equal scores. -/
def c8State : ServerState :=
  run (initState (createSession "s" "Q" [q0]))
    [.hostJoin 1 "s", .playerJoin 2 "s" "Alice", .playerJoin 3 "s" "Bob",
     .playerJoin 4 "s" "Alice", .hostStart 1 (some 5),
     .timerFire 0, .timerFire 0, .timerFire 0, .timerFire 0, .timerFire 0,
     .timerFire 1, .timerFire 1, .timerFire 1, .timerFire 1, .timerFire 1, .timerFire 1]

/-- C8 counterexample: equal-score players do *not* retain their original
join order.  Alice joined before Bob, both end on 0 points, yet the final
standings broadcast by `endQuiz` are `[Bob, Alice]` — a reconnect re-inserts
the player at the end of the map, and the stable sort ties break by current
map order, not by original join order (whose stable sort would keep
`[Alice, Bob]`). -/
theorem claim_C8_cex :
    c8State.outputs.filterMap (fun o => match o with
        | .quizFinished _ _ res => some res
        | _ => none)
      = [[⟨"Bob", 0⟩, ⟨"Alice", 0⟩]] ∧
    List.insertionSort standingGe [⟨"Alice", 0⟩, ⟨"Bob", 0⟩]
      = [⟨"Alice", 0⟩, ⟨"Bob", 0⟩] ∧
    [[(⟨"Bob", 0⟩ : Standing), ⟨"Alice", 0⟩]] ≠ [[(⟨"Alice", 0⟩ : Standing), ⟨"Bob", 0⟩]] := by
  refine ⟨?_, ?_, ?_⟩ <;> decide

/-- C8 (amended): at finish, `endQuiz` broadcasts the podium and the full
standings, where the standings are all players stably sorted descending by
cumulative score with ties retaining the *current player-map insertion
order* (a reconnect moves a player to the end of that order, so original
join order is not always preserved): they are sorted, a permutation of the
roster, and each equal-score class appears in roster order; the podium is
the top min(3, n) standings with explicit rank numbers 1, 2, 3. -/
theorem claim_C8 :
    (∀ (st : ServerState) (s : Session), (endQuiz st s).outputs = st.outputs ++
        [.quizFinished s.id (podiumOf (standingsOf (mapValues s.players)))
          (standingsOf (mapValues s.players))]) ∧
    (∀ l : List Player, List.Sorted standingGe (standingsOf l)) ∧
    (∀ l : List Player, (standingsOf l).Perm (l.map (fun p => ⟨p.name, p.score⟩))) ∧
    (∀ (l : List Player) (k : ℤ), (standingsOf l).filter (fun e => e.score == k)
        = (l.map (fun p => (⟨p.name, p.score⟩ : Standing))).filter (fun e => e.score == k)) ∧
    (∀ stg : List Standing,
        (podiumOf stg).length = min 3 stg.length ∧
        (podiumOf stg).map PodiumEntry.position = List.range' 1 (min 3 stg.length) ∧
        (podiumOf stg).map (fun e => (⟨e.name, e.score⟩ : Standing)) = stg.take 3) := by
  refine ⟨?_, ?_, ?_, ?_, ?_⟩
  · intro st s
    rfl
  · intro l
    exact List.sorted_insertionSort standingGe _
  · intro l
    exact List.perm_insertionSort standingGe _
  · intro l k
    exact insertionSort_score_filter _ k
  · intro stg
    refine ⟨?_, ?_, ?_⟩
    · simp [podiumOf, List.length_take]
    · rw [podiumOf, List.map_map]
      have h := enumFrom_map_pos (stg.take 3) 0
      rw [List.length_take] at h
      exact h
    · rw [podiumOf, List.map_map]
      exact enumFrom_map_entry (stg.take 3) 0

theorem values_find_isSome (m : List (ConnId × Player)) (pred : Player → Bool) :
    ((mapValues m).find? pred).isSome = (m.find? (fun e => pred e.2)).isSome := by
  induction m with
  | nil => rfl
  | cons e rest ih =>
    by_cases h : pred e.2
    · simp [mapValues, List.find?_cons, h]
    · have hb : pred e.2 = false := by simpa using h
      simp only [mapValues, List.map_cons, List.find?_cons, hb, cond_false]
      simpa [mapValues] using ih

theorem any_eq_false_of_find?_none {α : Type} (l : List α) (pred : α → Bool)
    (h : l.find? pred = none) : l.any pred = false := by
  rw [← Bool.not_eq_true, List.any_eq_true]
  push_neg
  intro x hx
  have := List.find?_eq_none.mp h x hx
  simpa using this

/-- C4: the `player:join` protocol.  (1) an unknown session fails
`Session not found`; (2) a case-insensitive name match is a reconnect: the
matched player's record — score included — is re-keyed from its old
connection id to the new one, the old mapping disappears, and the roster is
rebroadcast; (3) with no match and status ≠ lobby the join fails
`Quiz has already started`; (4) with no match in the lobby a fresh player
with score 0 (and no recorded answer) is created and the roster is
rebroadcast — and a no-match join can never collide case-insensitively with
a current name (conjunct 5), so the `DuplicateName` rejection is vacuously
confined to the impossible no-match-but-colliding case, exactly as claimed. -/
theorem claim_C4 :
    (∀ (st : ServerState) (c : ConnId) (sid : SessionId) (n : String),
        sessionAt st sid = none →
        step st (.playerJoin c sid n) = emit st (.errorMsg c "Session not found")) ∧
    (∀ (st : ServerState) (c : ConnId) (sid : SessionId) (n : String) (s : Session)
        (entry : ConnId × Player),
        sessionAt st sid = some s →
        s.players.find? (fun e => jsToLower e.2.name == jsToLower n) = some entry →
        (s.players.map Prod.fst).Nodup →
        (sessionAt (step st (.playerJoin c sid n)) s.id).map Session.players
          = some (mapSet (mapDelete s.players entry.1) c entry.2) ∧
        mapGet (mapSet (mapDelete s.players entry.1) c entry.2) c = some entry.2 ∧
        (entry.1 ≠ c → mapGet (mapSet (mapDelete s.players entry.1) c entry.2) entry.1 = none) ∧
        (step st (.playerJoin c sid n)).outputs = st.outputs ++
          [.lobbyPlayers sid s.name
            (rosterOf { s with players := mapSet (mapDelete s.players entry.1) c entry.2 })]) ∧
    (∀ (st : ServerState) (c : ConnId) (sid : SessionId) (n : String) (s : Session),
        sessionAt st sid = some s →
        (mapValues s.players).find? (fun q => jsToLower q.name == jsToLower n) = none →
        s.status ≠ Status.lobby →
        step st (.playerJoin c sid n) = emit st (.errorMsg c "Quiz has already started")) ∧
    (∀ (st : ServerState) (c : ConnId) (sid : SessionId) (n : String) (s : Session),
        sessionAt st sid = some s →
        (mapValues s.players).find? (fun q => jsToLower q.name == jsToLower n) = none →
        s.status = Status.lobby →
        (sessionAt (step st (.playerJoin c sid n)) s.id).map Session.players
          = some (mapSet s.players c ⟨n, 0, none, none⟩) ∧
        mapGet (mapSet s.players c ⟨n, 0, none, none⟩) c = some ⟨n, 0, none, none⟩ ∧
        (step st (.playerJoin c sid n)).outputs = st.outputs ++
          [.lobbyPlayers sid s.name
            (rosterOf { s with players := mapSet s.players c ⟨n, 0, none, none⟩ })]) ∧
    (∀ (s : Session) (n : String),
        (mapValues s.players).find? (fun q => jsToLower q.name == jsToLower n) = none →
        (mapValues s.players).any (fun q => jsToLower q.name == jsToLower n) = false) := by
  refine ⟨?_, ?_, ?_, ?_, ?_⟩
  · intro st c sid n h
    simp only [step, handlePlayerJoin, h]
  · intro st c sid n s entry hlk hfind hnd
    have hrec : ((mapValues s.players).find? (fun q => jsToLower q.name == jsToLower n)).isSome
        = true := by
      rw [values_find_isSome, hfind]
      rfl
    simp only [step, handlePlayerJoin, hlk, hrec, Bool.not_true, Bool.and_false,
      Bool.false_eq_true, if_false, Bool.false_and, hfind]
    refine ⟨?_, mapGet_mapSet_self _ _ _, ?_, ?_⟩
    · rw [sessionAt_emit, sessionAt_setConns, sessionAt_putSession]
      simp
    · intro hne
      rw [mapGet_mapSet_ne _ _ _ _ hne]
      exact mapGet_mapDelete_self _ _ hnd
    · rfl
  · intro st c sid n s hlk hvfind hstat
    have hrec : ((mapValues s.players).find? (fun q => jsToLower q.name == jsToLower n)).isSome
        = false := by rw [hvfind]; rfl
    have hsb : (s.status != Status.lobby) = true := by simpa using hstat
    simp only [step, handlePlayerJoin, hlk, hrec, Bool.not_false, Bool.and_true, hsb, if_true]
  · intro st c sid n s hlk hvfind hstat
    have hrec : ((mapValues s.players).find? (fun q => jsToLower q.name == jsToLower n)).isSome
        = false := by rw [hvfind]; rfl
    have hsb : (s.status != Status.lobby) = false := by simp [hstat]
    have hany := any_eq_false_of_find?_none _ _ hvfind
    simp only [step, handlePlayerJoin, hlk, hrec, Bool.not_false, Bool.and_true, hsb,
      Bool.false_eq_true, if_false, Bool.true_and, hany]
    refine ⟨?_, mapGet_mapSet_self _ _ _, ?_⟩
    · rw [sessionAt_emit, sessionAt_setConns, sessionAt_putSession]
      simp
    · rfl
  · intro s n h
    exact any_eq_false_of_find?_none _ _ h

/-- State with players on sockets 2 ("Alice") and 3 ("Bob") in the lobby. -/
def twoPlayerState : ServerState :=
  run (initState (createSession "s" "Q" [q0]))
    [.hostJoin 1 "s", .playerJoin 2 "s" "Alice", .playerJoin 3 "s" "Bob"]

/-- The session object held in `twoPlayerState`. -/
def twoPlayerSession : Session := (sessionAt twoPlayerState "s").getD (createSession "s" "Q" [])

theorem claim_C4_witness :
    step twoPlayerState (.playerJoin 9 "nope" "Alice")
      = emit twoPlayerState (.errorMsg 9 "Session not found") ∧
    ((sessionAt (step twoPlayerState (.playerJoin 4 "s" "ALICE")) twoPlayerSession.id).map
        Session.players
      = some (mapSet (mapDelete twoPlayerSession.players 2) 4 ⟨"Alice", 0, none, none⟩) ∧
      mapGet (mapSet (mapDelete twoPlayerSession.players 2) 4 ⟨"Alice", 0, none, none⟩) 4
        = some ⟨"Alice", 0, none, none⟩ ∧
      ((2 : ConnId) ≠ 4 →
        mapGet (mapSet (mapDelete twoPlayerSession.players 2) 4 ⟨"Alice", 0, none, none⟩) 2
          = none)) ∧
    step playingState (.playerJoin 5 "s" "Zoe")
      = emit playingState (.errorMsg 5 "Quiz has already started") ∧
    mapGet (mapSet twoPlayerSession.players 6 ⟨"Carol", 0, none, none⟩) 6
      = some ⟨"Carol", 0, none, none⟩ :=
  ⟨claim_C4.1 twoPlayerState 9 "nope" "Alice" (by decide),
   ⟨((claim_C4.2.1 twoPlayerState 4 "s" "ALICE" twoPlayerSession (2, ⟨"Alice", 0, none, none⟩)
        (by decide) (by decide) (by decide))).1,
    ((claim_C4.2.1 twoPlayerState 4 "s" "ALICE" twoPlayerSession (2, ⟨"Alice", 0, none, none⟩)
        (by decide) (by decide) (by decide))).2.1,
    ((claim_C4.2.1 twoPlayerState 4 "s" "ALICE" twoPlayerSession (2, ⟨"Alice", 0, none, none⟩)
        (by decide) (by decide) (by decide))).2.2.1⟩,
   claim_C4.2.2.1 playingState 5 "s" "Zoe" playingSession (by decide) (by decide) (by decide),
   (claim_C4.2.2.2.1 twoPlayerState 6 "s" "Carol" twoPlayerSession (by decide) (by decide)
     (by decide)).2.1⟩

end Qoot
